import Mathlib

/-!
Shallow embedding of `pkg/controller/distributedrediscluster/sync_handler.go`
from the redis-cluster-operator repository, together with proofs about the
orchestration functions `validate`, `ensureCluster`, `waitPodReady`,
`waitForClusterJoin`, `syncCluster` and `scalingDown`.

External collaborators (the Kubernetes client, the administrative Redis
client, the clustering package, the healer and checker) are modelled as an
explicit environment record holding the outcome of each external call site.
Side effects are recorded as an event trace.  Go in-place mutation of the
cluster object is modelled by returning the updated cluster value.
-/

set_option autoImplicit false

namespace SyncHandler

/-- A raw Go error value as produced by an external collaborator or by
`fmt.Errorf` inside this file.  `requestRetryable` records the verdict of
`k8sutil.IsRequestRetryable` on this error; that classifier lives in the
same repository but outside the sources under analysis, so its verdict is
carried as data on the error (see `errBackupSourceRequired` and
`errBackupStillRunning` for the two errors built by the analysed file). -/
structure GoError where
  msg : String
  requestRetryable : Bool
  deriving DecidableEq

/-- The error-classifier taxonomy used by the controller package:
`Kubernetes`, `StopRetry`, `Requeue`, `Redis` and `Cluster` wrap kinds. -/
inductive ErrKind where
  | Kubernetes
  | StopRetry
  | Requeue
  | Redis
  | Cluster
  deriving DecidableEq

/-- An error value as returned by the orchestration functions: either a
cause wrapped with exactly one classifier kind and a step name
(`Kind.Wrap(err, step)`), a fresh classified message (`Kind.New(msg)`), or
a raw unwrapped error (`return err`). -/
inductive OpError where
  | wrapped (kind : ErrKind) (step : String) (cause : GoError)
  | newMsg (kind : ErrKind) (msg : String)
  | raw (cause : GoError)
  deriving DecidableEq

/-- An error is classified when it carries a classifier kind. -/
def OpError.isClassified : OpError → Bool
  | .raw _ => false
  | _ => true

/-- Outcome of running one orchestration function: normal return with no
error, return of an error value, or a runtime fault (nil dereference). -/
inductive RunResult where
  | ok
  | err (e : OpError)
  | fault (msg : String)
  deriving DecidableEq

/-- `redisutil.Node`: identity, address, role and assigned slot set. -/
structure Node where
  id : String
  ip : String
  port : String
  role : String
  slots : List Nat
  deriving DecidableEq

/-- Modelled from the spec: `Node.IPPort` of the redisutil package (outside
the analysed sources) renders the network address of a node. -/
def Node.ipport (n : Node) : String := n.ip ++ ":" ++ n.port

/-- Reference to the backup object used to seed a restored cluster. -/
structure BackupSource where
  ns : String
  name : String
  deriving DecidableEq

/-- `Spec.Init`: optional restore-from-backup request. -/
structure InitSpec where
  backupSource : Option BackupSource
  deriving DecidableEq

/-- `DistributedRedisCluster.Spec`: desired state. -/
structure ClusterSpec where
  masterSize : Int
  clusterReplicas : Int
  image : String
  init : Option InitSpec
  deriving DecidableEq

/-- `DistributedRedisCluster.Status`: observed and derived state. -/
structure ClusterStatus where
  restoreSucceeded : Int
  minReplicationFactor : Int
  deriving DecidableEq

/-- The cluster custom resource, restricted to the fields this file reads. -/
structure DistributedRedisCluster where
  name : String
  ns : String
  spec : ClusterSpec
  status : ClusterStatus
  deriving DecidableEq

/-- Recorded status of a `RedisClusterBackup` object. -/
structure BackupStatus where
  phase : String
  clusterImage : String
  masterSize : Int
  clusterReplicas : Int
  deriving DecidableEq

/-- The backup custom resource, restricted to the fields this file reads. -/
structure RedisClusterBackup where
  status : BackupStatus
  deriving DecidableEq

/-- `redisv1alpha1.BackupPhaseSucceeded`. -/
def backupPhaseSucceeded : String := "Succeeded"

/-- A stateful set as fetched by `GetStatefulSet`; only its labels are
used (for `DeletePvcByLabels`). -/
structure StatefulSet where
  labels : List (String × String)
  deriving DecidableEq

/-- Modelled from the spec: `statefulsets.ClusterStatefulSetName` (outside
the analysed sources) maps a cluster name and a group ordinal to the
ordinal-indexed compute-unit group name (§3, Group). -/
def clusterStatefulSetName (clusterName : String) (i : Int) : String :=
  "drc-" ++ clusterName ++ "-" ++ toString i

/-- Modelled from the spec: `statefulsets.ClusterHeadlessSvcName` (outside
the analysed sources) maps a cluster name and a group ordinal to the
ordinal-indexed headless service name. -/
def clusterHeadlessSvcName (clusterName : String) (i : Int) : String :=
  clusterName ++ "-" ++ toString i

/-- Which of the four `syncCluster` branches was entered, matching the four
branch-entry log lines of the source. -/
inductive SyncBranch where
  | bootstrap
  | scaleUp
  | scaleReplicas
  | scaleDown
  deriving DecidableEq

/-- One observable side effect (an external call issued, or a sleep). -/
inductive Event where
  | getBackup (ns name : String)
  | ensureConfigMap
  | ensureSts
  | waitSts (timeoutSec tickSec : Int)
  | ensureHeadless
  | ensureSvc
  | ensureOSM
  | fixTerminating
  | checkNodeNum
  | queryTopo
  | attachNode (addr : String)
  | sleepSec (n : Nat)
  | branch (b : SyncBranch)
  | placeSlaves
  | attachSlaves
  | allocSlots
  | rebalance
  | dispatchSlots
  | connRemove (addr : String)
  | getSts (name : String)
  | forget (id : String)
  | deleteSts (name : String)
  | deleteSvc (name : String)
  | deletePDB (name : String)
  | deletePvc (labels : List (String × String))
  | waitTerminating (name : String) (timeoutSec tickSec : Int)
  deriving DecidableEq

/-- True exactly on connection-pool removal events. -/
def Event.isConnRemove : Event → Bool
  | .connRemove _ => true
  | _ => false

/-- True exactly on branch-entry events of `syncCluster`. -/
def Event.isBranch : Event → Bool
  | .branch _ => true
  | _ => false

/-- True exactly on the resource-removal events of scale-down: deletion of
the stateful set, service, disruption budget or storage claims, and the
termination wait that follows them. -/
def Event.isDeletionEvent : Event → Bool
  | .deleteSts _ => true
  | .deleteSvc _ => true
  | .deletePDB _ => true
  | .deletePvc _ => true
  | .waitTerminating _ _ _ => true
  | _ => false

/-- The stateful-set names fetched in a trace, in order. -/
def stsNamesOf (t : List Event) : List String :=
  t.filterMap fun e =>
    match e with
    | .getSts s => some s
    | _ => none

/-- Result of one orchestration function: the returned error status, the
cluster object after the call (Go mutates it through a pointer), and the
trace of side effects issued. -/
structure StepOut where
  res : RunResult
  cluster : DistributedRedisCluster
  trace : List Event
  deriving DecidableEq

/-- Modelled from the spec: `k8sutil.IsRequestRetryable` (same repository,
outside the analysed sources) classifies the missing-backup-source failure
of `validate` as non-retryable (§4.1: fail non-retryable if no backup
source is named). -/
def errBackupSourceRequired : GoError :=
  { msg := "backupSource is required", requestRetryable := false }

/-- Modelled from the spec: `k8sutil.IsRequestRetryable` (same repository,
outside the analysed sources) surfaces the backup-not-yet-succeeded failure
of `validate` as retryable (§4.1: fail retryable if the backup has not
reached a succeeded phase). -/
def errBackupStillRunning : GoError :=
  { msg := "backup is still running", requestRetryable := true }

/-- Environment for `validate` and `ensureCluster`: the outcome of every
external call site, one field per site. -/
structure EnsureEnv where
  /-- `crController.GetRedisClusterBackup` as called inside `validate`. -/
  getRedisClusterBackupV : Except GoError RedisClusterBackup
  /-- `crController.GetRedisClusterBackup` as re-called inside `ensureCluster`. -/
  getRedisClusterBackup2 : Except GoError RedisClusterBackup
  ensureRedisConfigMap : Except GoError Unit
  /-- `EnsureRedisStatefulsets`; the payload is the `updated` flag. -/
  ensureRedisStatefulsets : Except GoError Bool
  /-- Outcome of `waiting(waitStatefulSetUpdating)`.  Modelled from the
  spec: the WaitPoller is outside the analysed sources and returns its
  failures already classified (§4.3, §5: surfaced as Requeue-classified). -/
  waitStatefulSetUpdating : Except OpError Unit
  ensureRedisHeadLessSvcs : Except GoError Unit
  ensureRedisSvc : Except GoError Unit
  ensureRedisOSMSecret : Except GoError Unit

/-- `validate` (sync_handler.go:92-117).  Returns the raw (unclassified)
error or `none`, the cluster after the in-place spec overwrites, and the
trace.  `cluster.Validate(reqLogger)` is modelled from the spec: §4.1 only
delegates remaining structural validation to the spec object and describes
no further effect, so it is the identity here. -/
def validate (env : EnsureEnv) (cl : DistributedRedisCluster) :
    Option GoError × DistributedRedisCluster × List Event :=
  match cl.spec.init with
  | none => (none, cl, [])
  | some initSpec =>
    match initSpec.backupSource with
    | none => (some errBackupSourceRequired, cl, [])
    | some bs =>
      match env.getRedisClusterBackupV with
      | .error g => (some g, cl, [.getBackup bs.ns bs.name])
      | .ok backup =>
        if backup.status.phase ≠ backupPhaseSucceeded then
          (some errBackupStillRunning, cl, [.getBackup bs.ns bs.name])
        else
          let newImage := if cl.spec.image = "" then backup.status.clusterImage else cl.spec.image
          let newReplicas : Int :=
            if cl.status.restoreSucceeded ≤ 0 then 0 else backup.status.clusterReplicas
          let cl2 := { cl with spec :=
            { cl.spec with
                image := newImage
                masterSize := backup.status.masterSize
                clusterReplicas := newReplicas } }
          (none, cl2, [.getBackup bs.ns bs.name])

/-- Tail of `ensureCluster` (sync_handler.go:66-78): the headless service,
client service and OSM secret ensure steps. -/
def ensureTail (env : EnsureEnv) (cl : DistributedRedisCluster) (t0 : List Event) : StepOut :=
  match env.ensureRedisHeadLessSvcs with
  | .error g => ⟨.err (.wrapped .Kubernetes "EnsureRedisHeadLessSvcs" g), cl, t0 ++ [.ensureHeadless]⟩
  | .ok _ =>
    match env.ensureRedisSvc with
    | .error g => ⟨.err (.wrapped .Kubernetes "EnsureRedisSvc" g), cl, t0 ++ [.ensureHeadless, .ensureSvc]⟩
    | .ok _ =>
      match env.ensureRedisOSMSecret with
      | .error g =>
        if g.requestRetryable then
          ⟨.err (.wrapped .Kubernetes "EnsureRedisOSMSecret" g), cl,
            t0 ++ [.ensureHeadless, .ensureSvc, .ensureOSM]⟩
        else
          ⟨.err (.wrapped .StopRetry "stop retry" g), cl,
            t0 ++ [.ensureHeadless, .ensureSvc, .ensureOSM]⟩
      | .ok _ => ⟨.ok, cl, t0 ++ [.ensureHeadless, .ensureSvc, .ensureOSM]⟩

/-- Middle of `ensureCluster` (sync_handler.go:48-65): config map ensure,
stateful-set ensure, and the conditional wait for a structural update to
propagate.  Durations are in seconds. -/
def ensureResources (env : EnsureEnv) (cl : DistributedRedisCluster) (t0 : List Event) : StepOut :=
  match env.ensureRedisConfigMap with
  | .error g => ⟨.err (.wrapped .Kubernetes "EnsureRedisConfigMap" g), cl, t0 ++ [.ensureConfigMap]⟩
  | .ok _ =>
    match env.ensureRedisStatefulsets with
    | .error g => ⟨.err (.wrapped .Kubernetes "EnsureRedisStatefulSets" g), cl,
        t0 ++ [.ensureConfigMap, .ensureSts]⟩
    | .ok updated =>
      if updated then
        let tw := t0 ++ [.ensureConfigMap, .ensureSts,
          .waitSts (30 * (cl.spec.clusterReplicas + 2)) 5]
        match env.waitStatefulSetUpdating with
        | .error e => ⟨.err e, cl, tw⟩
        | .ok _ => ensureTail env cl tw
      else ensureTail env cl (t0 ++ [.ensureConfigMap, .ensureSts])

/-- Backup re-fetch of `ensureCluster` (sync_handler.go:42-47): when a
restore is requested the backup object is fetched again and a failure is
returned unwrapped (`return err`).  A `nil` `BackupSource` under a non-nil
`Init` would dereference nil in Go and is modelled as a fault (this path is
unreachable after a successful `validate`). -/
def ensureAfterValidate (env : EnsureEnv) (cl : DistributedRedisCluster) (t0 : List Event) : StepOut :=
  match cl.spec.init with
  | none => ensureResources env cl t0
  | some initSpec =>
    match initSpec.backupSource with
    | none => ⟨.fault "nil BackupSource dereference", cl, t0⟩
    | some bs =>
      match env.getRedisClusterBackup2 with
      | .error g => ⟨.err (.raw g), cl, t0 ++ [.getBackup bs.ns bs.name]⟩
      | .ok _ => ensureResources env cl (t0 ++ [.getBackup bs.ns bs.name])

/-- `ensureCluster` (sync_handler.go:31-79). -/
def ensureCluster (env : EnsureEnv) (cl : DistributedRedisCluster) : StepOut :=
  let v := validate env cl
  match v.1 with
  | some g =>
    if g.requestRetryable then ⟨.err (.wrapped .Kubernetes "Validate" g), v.2.1, v.2.2⟩
    else ⟨.err (.wrapped .StopRetry "stop retry" g), v.2.1, v.2.2⟩
  | none => ensureAfterValidate env v.2.1 v.2.2

/-- Environment for `waitPodReady`. -/
structure WaitPodEnv where
  fixTerminatingPods : Except GoError Unit
  checkRedisNodeNum : Except GoError Unit

/-- `waitPodReady` (sync_handler.go:81-90). -/
def waitPodReady (env : WaitPodEnv) (cl : DistributedRedisCluster) : StepOut :=
  match env.fixTerminatingPods with
  | .error g => ⟨.err (.wrapped .Kubernetes "FixTerminatingPods" g), cl, [.fixTerminating]⟩
  | .ok _ =>
    match env.checkRedisNodeNum with
    | .error g => ⟨.err (.wrapped .Requeue "CheckRedisNodeNum" g), cl, [.fixTerminating, .checkNodeNum]⟩
    | .ok _ => ⟨.ok, cl, [.fixTerminating, .checkNodeNum]⟩

/-- Environment for `waitForClusterJoin`: the two `GetClusterInfos` call
sites, the node snapshot `ctx.clusterInfos.Infos` (Go iterates a map in
unspecified order; the model picks the list head), and the outcome of
`AttachNodeToCluster` per address. -/
structure JoinEnv where
  getClusterInfos1 : Except GoError Unit
  snapshot : List Node
  attachNodeToCluster : String → Except GoError Unit
  getClusterInfos2 : Except GoError Unit

/-- `waitForClusterJoin` (sync_handler.go:119-144).  When the snapshot is
empty the Go code calls `IPPort` on a nil node pointer; that is the
`fault` outcome. -/
def waitForClusterJoin (env : JoinEnv) (cl : DistributedRedisCluster) : StepOut :=
  match env.getClusterInfos1 with
  | .ok _ => ⟨.ok, cl, [.queryTopo]⟩
  | .error _ =>
    match env.snapshot.head? with
    | none => ⟨.fault "nil node dereference in IPPort", cl, [.queryTopo]⟩
    | some firstNode =>
      match env.attachNodeToCluster firstNode.ipport with
      | .error g => ⟨.err (.wrapped .Redis "AttachNodeToCluster" g), cl,
          [.queryTopo, .attachNode firstNode.ipport]⟩
      | .ok _ =>
        match env.getClusterInfos2 with
        | .error g => ⟨.err (.wrapped .Requeue "wait for cluster join" g), cl,
            [.queryTopo, .attachNode firstNode.ipport, .sleepSec 1, .queryTopo]⟩
        | .ok _ => ⟨.ok, cl,
            [.queryTopo, .attachNode firstNode.ipport, .sleepSec 1, .queryTopo]⟩

/-- The descending group ordinals `top, top-1, ...` of length `n`. -/
def downIndicesAux : Nat → Int → List Int
  | 0, _ => []
  | Nat.succ k, top => top :: downIndicesAux k (top - 1)

/-- The ordinals visited by the scale-down loops
`for i := cur-1; i >= expect; i--`: from `cur - 1` down to `expect`. -/
def downIndices (cur expect : Int) : List Int :=
  downIndicesAux (cur - expect).toNat (cur - 1)

/-- Environment for `scalingDown`: stateful-set fetch by name, forget-node
by id, and the `GetStatefulsetNodes` map from group name to its nodes. -/
structure ScaleEnv where
  getStatefulSet : String → Except GoError StatefulSet
  forgetNode : String → Except GoError Unit
  stsNodes : String → List Node

/-- The per-node loop of scale-down pass 2 (sync_handler.go:229-237): for
each node, refuse with a fresh Redis-kind error if the node still holds
slots, otherwise issue the forget-node request.  The source formats the
offending node with `node.String()`; the model renders its id. -/
def forgetLoop (env : ScaleEnv) : List Node → RunResult × List Event
  | [] => (.ok, [])
  | n :: rest =>
    if n.slots.length > 0 then
      (.err (.newMsg .Redis ("node " ++ n.id ++ " is not empty! Reshard data away and try again")), [])
    else
      match env.forgetNode n.id with
      | .error g => (.err (.wrapped .Redis "ForgetNode" g), [.forget n.id])
      | .ok _ =>
        let r := forgetLoop env rest
        (r.1, .forget n.id :: r.2)

/-- The best-effort resource deletions and the termination wait issued for
one fully-forgotten group (sync_handler.go:238-263); their failures are
only logged. -/
def groupDels (cl : DistributedRedisCluster) (i : Int) (sts : StatefulSet) : List Event :=
  [.deleteSts (clusterStatefulSetName cl.name i),
   .deleteSvc (clusterHeadlessSvcName cl.name i),
   .deletePDB (clusterStatefulSetName cl.name i),
   .deletePvc sts.labels,
   .waitTerminating (clusterStatefulSetName cl.name i) (30 * (cl.spec.clusterReplicas + 2)) 5]

/-- Pass 2 of `scalingDown` (sync_handler.go:222-265), over the list of
group ordinals. -/
def scalingDownPass2 (env : ScaleEnv) (cl : DistributedRedisCluster) : List Int → RunResult × List Event
  | [] => (.ok, [])
  | i :: rest =>
    let name := clusterStatefulSetName cl.name i
    match env.getStatefulSet name with
    | .error g => (.err (.wrapped .Kubernetes "GetStatefulSet" g), [.getSts name])
    | .ok sts =>
      let fl := forgetLoop env (env.stsNodes name)
      match fl.1 with
      | .ok =>
        let p := scalingDownPass2 env cl rest
        (p.1, .getSts name :: (fl.2 ++ groupDels cl i sts ++ p.2))
      | r => (r, .getSts name :: fl.2)

/-- Pass 1 of `scalingDown` (sync_handler.go:216-221): remove every node of
every retiring group from the administrative connection pool. -/
def scalingDownPass1 (env : ScaleEnv) (cl : DistributedRedisCluster) (cur : Int) : List Event :=
  (downIndices cur cl.spec.masterSize).flatMap fun i =>
    (env.stsNodes (clusterStatefulSetName cl.name i)).map fun n => Event.connRemove n.ipport

/-- `scalingDown` (sync_handler.go:212-267). -/
def scalingDown (env : ScaleEnv) (cl : DistributedRedisCluster) (currentMasterNum : Int) : StepOut :=
  let p := scalingDownPass2 env cl (downIndices currentMasterNum cl.spec.masterSize)
  ⟨p.1, cl, scalingDownPass1 env cl currentMasterNum ++ p.2⟩

/-- Environment for `syncCluster`: outcomes of `newRedisCluster`, the
clustering-context calls, and the scale-down environment.  The sizes of the
current and new master sets computed by `DispatchMasters` (clustering
package, outside the analysed sources) are free inputs. -/
structure SyncEnv where
  newRedisClusterRes : Except GoError Unit
  dispatchMasters : Except GoError Unit
  numCurMasters : Nat
  numNewMasters : Nat
  placeSlaves : Except GoError Unit
  attachingSlavesToMaster : Except GoError Unit
  allocSlots : Except GoError Unit
  rebalancedCluster : Except GoError Unit
  /-- `DispatchSlotToNewMasters`; its failure is returned unwrapped by
  `syncCluster`, so the payload is already an `OpError` (modelled from the
  spec: §4.4, every error raised by the core is wrapped with one kind). -/
  dispatchSlotToNewMasters : Except OpError Unit
  scale : ScaleEnv

/-- The bootstrap branch of `syncCluster` (sync_handler.go:162-174). -/
def bootstrapRun (env : SyncEnv) : RunResult × List Event :=
  match env.placeSlaves with
  | .error g => (.err (.wrapped .Cluster "PlaceSlaves" g), [.branch .bootstrap, .placeSlaves])
  | .ok _ =>
    match env.attachingSlavesToMaster with
    | .error g => (.err (.wrapped .Cluster "AttachingSlavesToMaster" g),
        [.branch .bootstrap, .placeSlaves, .attachSlaves])
    | .ok _ =>
      match env.allocSlots with
      | .error g => (.err (.wrapped .Cluster "AllocSlots" g),
          [.branch .bootstrap, .placeSlaves, .attachSlaves, .allocSlots])
      | .ok _ => (.ok, [.branch .bootstrap, .placeSlaves, .attachSlaves, .allocSlots])

/-- The scale-up branch of `syncCluster` (sync_handler.go:175-187). -/
def scaleUpRun (env : SyncEnv) : RunResult × List Event :=
  match env.placeSlaves with
  | .error g => (.err (.wrapped .Cluster "PlaceSlaves" g), [.branch .scaleUp, .placeSlaves])
  | .ok _ =>
    match env.attachingSlavesToMaster with
    | .error g => (.err (.wrapped .Cluster "AttachingSlavesToMaster" g),
        [.branch .scaleUp, .placeSlaves, .attachSlaves])
    | .ok _ =>
      match env.rebalancedCluster with
      | .error g => (.err (.wrapped .Cluster "RebalancedCluster" g),
          [.branch .scaleUp, .placeSlaves, .attachSlaves, .rebalance])
      | .ok _ => (.ok, [.branch .scaleUp, .placeSlaves, .attachSlaves, .rebalance])

/-- The scale-replicas branch of `syncCluster` (sync_handler.go:188-196). -/
def scaleReplicasRun (env : SyncEnv) : RunResult × List Event :=
  match env.placeSlaves with
  | .error g => (.err (.wrapped .Cluster "PlaceSlaves" g), [.branch .scaleReplicas, .placeSlaves])
  | .ok _ =>
    match env.attachingSlavesToMaster with
    | .error g => (.err (.wrapped .Cluster "AttachingSlavesToMaster" g),
        [.branch .scaleReplicas, .placeSlaves, .attachSlaves])
    | .ok _ => (.ok, [.branch .scaleReplicas, .placeSlaves, .attachSlaves])

/-- The scale-down branch of `syncCluster` (sync_handler.go:197-207). -/
def scaleDownRun (env : SyncEnv) (cl : DistributedRedisCluster) : RunResult × List Event :=
  match env.dispatchSlotToNewMasters with
  | .error e => (.err e, [.branch .scaleDown, .dispatchSlots])
  | .ok _ =>
    let s := scalingDown env.scale cl (env.numCurMasters : Int)
    (s.res, .branch .scaleDown :: .dispatchSlots :: s.trace)

/-- `syncCluster` (sync_handler.go:146-210). -/
def syncCluster (env : SyncEnv) (cl : DistributedRedisCluster) : StepOut :=
  match env.newRedisClusterRes with
  | .error g => ⟨.err (.wrapped .Cluster "newRedisCluster" g), cl, []⟩
  | .ok _ =>
    match env.dispatchMasters with
    | .error g => ⟨.err (.wrapped .Cluster "DispatchMasters" g), cl, []⟩
    | .ok _ =>
      if env.numCurMasters = 0 then
        let r := bootstrapRun env
        ⟨r.1, cl, r.2⟩
      else if env.numNewMasters > env.numCurMasters then
        let r := scaleUpRun env
        ⟨r.1, cl, r.2⟩
      else if cl.status.minReplicationFactor < cl.spec.clusterReplicas then
        let r := scaleReplicasRun env
        ⟨r.1, cl, r.2⟩
      else if (env.numCurMasters : Int) > cl.spec.masterSize then
        let r := scaleDownRun env cl
        ⟨r.1, cl, r.2⟩
      else ⟨.ok, cl, []⟩

/-! Concrete fixtures used by counterexamples and witnesses. -/

/-- A retryable platform error. -/
def gBoom : GoError := { msg := "boom", requestRetryable := true }

/-- A non-retryable platform error. -/
def gDown : GoError := { msg := "down", requestRetryable := false }

/-- A slot-free node. -/
def nodeA : Node := { id := "A", ip := "10.0.0.1", port := "6379", role := "slave", slots := [] }

/-- A node still holding slot 0. -/
def nodeB : Node := { id := "B", ip := "10.0.0.2", port := "6379", role := "master", slots := [0] }

/-- A cluster with one target master group and no restore request. -/
def clPlain : DistributedRedisCluster :=
  { name := "c", ns := "default",
    spec := { masterSize := 1, clusterReplicas := 0, image := "", init := none },
    status := { restoreSucceeded := 0, minReplicationFactor := 0 } }

/-- Scale environment where group ordinal 1 holds a slot-free node followed
by a slot-holding node; every platform and protocol call succeeds. -/
def scaleEnvAB : ScaleEnv :=
  { getStatefulSet := fun _ => .ok { labels := [("app", "c")] },
    forgetNode := fun _ => .ok (),
    stsNodes := fun s => if s = "drc-c-1" then [nodeA, nodeB] else [] }

/-- Scale environment where group ordinal 1 holds only the slot-holding
node; every platform and protocol call succeeds. -/
def scaleEnvB : ScaleEnv :=
  { getStatefulSet := fun _ => .ok { labels := [] },
    forgetNode := fun _ => .ok (),
    stsNodes := fun s => if s = "drc-c-1" then [nodeB] else [] }

/-- Scale environment with no nodes anywhere and every call succeeding. -/
def scaleEnvEmpty : ScaleEnv :=
  { getStatefulSet := fun _ => .ok { labels := [] },
    forgetNode := fun _ => .ok (),
    stsNodes := fun _ => [] }

/-- A succeeded backup recording image `img-b`, 5 masters, 2 replicas. -/
def backupOk : RedisClusterBackup :=
  { status := { phase := "Succeeded", clusterImage := "img-b", masterSize := 5, clusterReplicas := 2 } }

/-- A cluster requesting a restore from backup `b1`, with a spec image of
its own. -/
def clRestore : DistributedRedisCluster :=
  { name := "r", ns := "default",
    spec := { masterSize := 3, clusterReplicas := 1, image := "keep",
              init := some { backupSource := some { ns := "ns1", name := "b1" } } },
    status := { restoreSucceeded := 0, minReplicationFactor := 0 } }

/-- A cluster requesting a restore with an empty spec image. -/
def clRestoreNoImage : DistributedRedisCluster :=
  { name := "r2", ns := "default",
    spec := { masterSize := 3, clusterReplicas := 1, image := "",
              init := some { backupSource := some { ns := "ns1", name := "b1" } } },
    status := { restoreSucceeded := 0, minReplicationFactor := 0 } }

/-- A cluster requesting a restore without naming a backup source. -/
def clNoSource : DistributedRedisCluster :=
  { name := "r3", ns := "default",
    spec := { masterSize := 3, clusterReplicas := 1, image := "",
              init := some { backupSource := none } },
    status := { restoreSucceeded := 0, minReplicationFactor := 0 } }

/-- Ensure environment in which every external call succeeds, the backup
fetches return `backupOk`, and the stateful-set ensure reports an update. -/
def ensureEnvOk : EnsureEnv :=
  { getRedisClusterBackupV := .ok backupOk,
    getRedisClusterBackup2 := .ok backupOk,
    ensureRedisConfigMap := .ok (),
    ensureRedisStatefulsets := .ok true,
    waitStatefulSetUpdating := .ok (),
    ensureRedisHeadLessSvcs := .ok (),
    ensureRedisSvc := .ok (),
    ensureRedisOSMSecret := .ok () }

/-- Ensure environment in which the backup re-fetch of `ensureCluster`
fails while everything else succeeds. -/
def ensureEnvRefetchFails : EnsureEnv :=
  { ensureEnvOk with getRedisClusterBackup2 := .error gBoom }

/-- Ensure environment in which the backup fetch inside `validate` fails. -/
def ensureEnvFetchFails : EnsureEnv :=
  { ensureEnvOk with getRedisClusterBackupV := .error gBoom }

/-- Join environment: live topology query fails, one known node, the join
request succeeds, and the re-query fails. -/
def joinEnvRequeue : JoinEnv :=
  { getClusterInfos1 := .error gBoom,
    snapshot := [nodeA],
    attachNodeToCluster := fun _ => .ok (),
    getClusterInfos2 := .error gDown }

/-- Join environment: live topology query fails and the join request
itself fails. -/
def joinEnvAttachFails : JoinEnv :=
  { getClusterInfos1 := .error gBoom,
    snapshot := [nodeA],
    attachNodeToCluster := fun _ => .error gDown,
    getClusterInfos2 := .ok () }

/-- Join environment: live topology query fails over an empty snapshot. -/
def joinEnvEmpty : JoinEnv :=
  { getClusterInfos1 := .error gBoom,
    snapshot := [],
    attachNodeToCluster := fun _ => .ok (),
    getClusterInfos2 := .ok () }

/-- Wait-pod environment whose healer call fails. -/
def waitPodEnvFail : WaitPodEnv :=
  { fixTerminatingPods := .error gBoom, checkRedisNodeNum := .ok () }

/-- Sync environment: plan computation succeeds, two current masters but
only one new master, and no slot-holding nodes anywhere. -/
def syncEnvShrink : SyncEnv :=
  { newRedisClusterRes := .ok (),
    dispatchMasters := .ok (),
    numCurMasters := 2,
    numNewMasters := 1,
    placeSlaves := .ok (),
    attachingSlavesToMaster := .ok (),
    allocSlots := .ok (),
    rebalancedCluster := .ok (),
    dispatchSlotToNewMasters := .ok (),
    scale := scaleEnvEmpty }

/-- A cluster whose target master count is 1 and which asks for one
replica per master while none is observed yet. -/
def clWantReplicas : DistributedRedisCluster :=
  { name := "c", ns := "default",
    spec := { masterSize := 1, clusterReplicas := 1, image := "", init := none },
    status := { restoreSucceeded := 0, minReplicationFactor := 0 } }

/-! Helper lemmas. -/

theorem mem_downIndicesAux (n : Nat) (top i : Int) :
    i ∈ downIndicesAux n top ↔ top - (n : Int) < i ∧ i ≤ top := by
  induction n generalizing top with
  | zero =>
    simp only [downIndicesAux, List.not_mem_nil, false_iff]
    omega
  | succ k ih =>
    simp only [downIndicesAux, List.mem_cons, ih]
    omega

theorem mem_downIndices (cur expect i : Int) :
    i ∈ downIndices cur expect ↔ expect ≤ i ∧ i ≤ cur - 1 := by
  simp only [downIndices, mem_downIndicesAux]
  omega

theorem downIndicesAux_pairwise (n : Nat) (top : Int) :
    (downIndicesAux n top).Pairwise (· > ·) := by
  induction n generalizing top with
  | zero => simp [downIndicesAux]
  | succ k ih =>
    simp only [downIndicesAux, List.pairwise_cons]
    refine ⟨fun j hj => ?_, ih _⟩
    rw [mem_downIndicesAux] at hj
    omega

theorem downIndices_pairwise (cur expect : Int) :
    (downIndices cur expect).Pairwise (· > ·) :=
  downIndicesAux_pairwise _ _

theorem forgetLoop_events_shape (env : ScaleEnv) (nodes : List Node) :
    ∀ e ∈ (forgetLoop env nodes).2, ∃ id, e = Event.forget id := by
  induction nodes with
  | nil => simp [forgetLoop]
  | cons n rest ih =>
    by_cases h : n.slots.length > 0
    · simp [forgetLoop, h]
    · simp only [forgetLoop, if_neg h]
      cases hf : env.forgetNode n.id with
      | error g => simp
      | ok u => simpa using fun e he => ih e he

theorem forgetLoop_ok_all_empty (env : ScaleEnv) (nodes : List Node)
    (h : (forgetLoop env nodes).1 = .ok) : ∀ n ∈ nodes, n.slots = [] := by
  induction nodes with
  | nil => simp
  | cons n rest ih =>
    by_cases hs : n.slots.length > 0
    · simp [forgetLoop, hs] at h
    · have hempty : n.slots = [] := by
        cases hn : n.slots with
        | nil => rfl
        | cons a l => rw [hn] at hs; simp at hs
      simp only [forgetLoop, if_neg hs] at h
      cases hf : env.forgetNode n.id with
      | error g => rw [hf] at h; simp at h
      | ok u =>
        rw [hf] at h
        simp only at h
        intro m hm
        rcases List.mem_cons.mp hm with rfl | hm'
        · exact hempty
        · exact ih h m hm'

theorem forgetLoop_events_empty (env : ScaleEnv) (nodes : List Node) :
    ∀ id, Event.forget id ∈ (forgetLoop env nodes).2 →
      ∃ n, n ∈ nodes ∧ n.id = id ∧ n.slots = [] := by
  induction nodes with
  | nil => simp [forgetLoop]
  | cons n rest ih =>
    by_cases hs : n.slots.length > 0
    · simp [forgetLoop, hs]
    · have hempty : n.slots = [] := by
        cases hn : n.slots with
        | nil => rfl
        | cons a l => rw [hn] at hs; simp at hs
      simp only [forgetLoop, if_neg hs]
      cases hf : env.forgetNode n.id with
      | error g =>
        intro id hid
        simp only [List.mem_singleton] at hid
        injection hid with h
        exact ⟨n, List.mem_cons_self _ _, h.symm, hempty⟩
      | ok u =>
        intro id hid
        simp only [List.mem_cons] at hid
        rcases hid with hid | hid
        · injection hid with h
          exact ⟨n, List.mem_cons_self _ _, h.symm, hempty⟩
        · rcases ih id hid with ⟨m, hm, hmid, hme⟩
          exact ⟨m, List.mem_cons_of_mem _ hm, hmid, hme⟩

theorem forgetLoop_all_ok (env : ScaleEnv) (nodes : List Node)
    (hf : ∀ id, env.forgetNode id = .ok ())
    (he : ∀ n ∈ nodes, n.slots = []) :
    forgetLoop env nodes = (.ok, nodes.map fun n => Event.forget n.id) := by
  induction nodes with
  | nil => simp [forgetLoop]
  | cons n rest ih =>
    have hempty : n.slots = [] := he n (List.mem_cons_self _ _)
    have hs : ¬ n.slots.length > 0 := by rw [hempty]; simp
    simp only [forgetLoop, if_neg hs, hf n.id]
    rw [ih fun m hm => he m (List.mem_cons_of_mem _ hm)]
    simp

theorem forgetLoop_offender (env : ScaleEnv) (nodes : List Node)
    (hf : ∀ id, env.forgetNode id = .ok ())
    (hoff : ∃ n ∈ nodes, n.slots ≠ []) :
    ∃ m, (forgetLoop env nodes).1 = .err (.newMsg .Redis m) := by
  induction nodes with
  | nil => simp at hoff
  | cons n rest ih =>
    by_cases hs : n.slots.length > 0
    · exact ⟨"node " ++ n.id ++ " is not empty! Reshard data away and try again",
        by simp [forgetLoop, hs]⟩
    · have hempty : n.slots = [] := by
        cases hn : n.slots with
        | nil => rfl
        | cons a l => rw [hn] at hs; simp at hs
      simp only [forgetLoop, if_neg hs, hf n.id]
      rcases hoff with ⟨m, hm, hme⟩
      rcases List.mem_cons.mp hm with rfl | hm'
      · exact absurd hempty hme
      · exact ih ⟨m, hm', hme⟩

theorem forgetLoop_err_classified (env : ScaleEnv) (nodes : List Node) (e : OpError)
    (h : (forgetLoop env nodes).1 = .err e) : e.isClassified = true := by
  induction nodes with
  | nil => simp [forgetLoop] at h
  | cons n rest ih =>
    by_cases hs : n.slots.length > 0
    · simp only [forgetLoop, if_pos hs] at h
      injection h with h
      rw [← h]; rfl
    · simp only [forgetLoop, if_neg hs] at h
      cases hf : env.forgetNode n.id with
      | error g =>
        rw [hf] at h
        injection h with h
        rw [← h]; rfl
      | ok u => rw [hf] at h; simp only at h; exact ih h

theorem mem_groupDels_kinds (cl : DistributedRedisCluster) (i : Int) (sts : StatefulSet) :
    ∀ e ∈ groupDels cl i sts,
      e.isDeletionEvent = true ∧ e.isConnRemove = false ∧ e.isBranch = false := by
  intro e he
  simp only [groupDels, List.mem_cons, List.mem_singleton] at he
  rcases he with rfl | rfl | rfl | rfl | rfl | h
  · exact ⟨rfl, rfl, rfl⟩
  · exact ⟨rfl, rfl, rfl⟩
  · exact ⟨rfl, rfl, rfl⟩
  · exact ⟨rfl, rfl, rfl⟩
  · exact ⟨rfl, rfl, rfl⟩
  · simp at h

theorem pass2_events_kinds (env : ScaleEnv) (cl : DistributedRedisCluster) (idx : List Int) :
    ∀ e ∈ (scalingDownPass2 env cl idx).2, e.isConnRemove = false ∧ e.isBranch = false := by
  induction idx with
  | nil => simp [scalingDownPass2]
  | cons i rest ih =>
    intro e he
    simp only [scalingDownPass2] at he
    cases hg : env.getStatefulSet (clusterStatefulSetName cl.name i) with
    | error g =>
      rw [hg] at he
      simp only [List.mem_singleton] at he
      subst he; exact ⟨rfl, rfl⟩
    | ok sts =>
      rw [hg] at he
      simp only at he
      cases hr : (forgetLoop env (env.stsNodes (clusterStatefulSetName cl.name i))).1 with
      | ok =>
        rw [hr] at he
        simp only [List.mem_cons, List.mem_append] at he
        rcases he with rfl | (hfl | hgd) | hp
        · exact ⟨rfl, rfl⟩
        · rcases forgetLoop_events_shape env _ e hfl with ⟨id, rfl⟩
          exact ⟨rfl, rfl⟩
        · exact (mem_groupDels_kinds cl i sts e hgd).2
        · exact ih e hp
      | err e0 =>
        rw [hr] at he
        simp only [List.mem_cons] at he
        rcases he with rfl | hfl
        · exact ⟨rfl, rfl⟩
        · rcases forgetLoop_events_shape env _ e hfl with ⟨id, rfl⟩
          exact ⟨rfl, rfl⟩
      | fault m =>
        rw [hr] at he
        simp only [List.mem_cons] at he
        rcases he with rfl | hfl
        · exact ⟨rfl, rfl⟩
        · rcases forgetLoop_events_shape env _ e hfl with ⟨id, rfl⟩
          exact ⟨rfl, rfl⟩

theorem pass2_forget_events (env : ScaleEnv) (cl : DistributedRedisCluster) (idx : List Int) :
    ∀ id, Event.forget id ∈ (scalingDownPass2 env cl idx).2 →
      ∃ i, i ∈ idx ∧ ∃ n, n ∈ env.stsNodes (clusterStatefulSetName cl.name i) ∧
        n.id = id ∧ n.slots = [] := by
  induction idx with
  | nil => simp [scalingDownPass2]
  | cons i rest ih =>
    intro id he
    simp only [scalingDownPass2] at he
    cases hg : env.getStatefulSet (clusterStatefulSetName cl.name i) with
    | error g =>
      rw [hg] at he
      simp at he
    | ok sts =>
      rw [hg] at he
      simp only at he
      cases hr : (forgetLoop env (env.stsNodes (clusterStatefulSetName cl.name i))).1 with
      | ok =>
        rw [hr] at he
        simp only [List.mem_cons, List.mem_append] at he
        rcases he with habs | (hfl | hgd) | hp
        · exact absurd habs (by simp)
        · rcases forgetLoop_events_empty env _ id hfl with ⟨n, hn, hnid, hne⟩
          exact ⟨i, List.mem_cons_self _ _, n, hn, hnid, hne⟩
        · exact absurd (mem_groupDels_kinds cl i sts _ hgd).1 (by simp [Event.isDeletionEvent])
        · rcases ih id hp with ⟨j, hj, hrest⟩
          exact ⟨j, List.mem_cons_of_mem _ hj, hrest⟩
      | err e0 =>
        rw [hr] at he
        simp only [List.mem_cons] at he
        rcases he with habs | hfl
        · exact absurd habs (by simp)
        · rcases forgetLoop_events_empty env _ id hfl with ⟨n, hn, hnid, hne⟩
          exact ⟨i, List.mem_cons_self _ _, n, hn, hnid, hne⟩
      | fault m =>
        rw [hr] at he
        simp only [List.mem_cons] at he
        rcases he with habs | hfl
        · exact absurd habs (by simp)
        · rcases forgetLoop_events_empty env _ id hfl with ⟨n, hn, hnid, hne⟩
          exact ⟨i, List.mem_cons_self _ _, n, hn, hnid, hne⟩

theorem pass2_deletion_events (env : ScaleEnv) (cl : DistributedRedisCluster) (idx : List Int) :
    ∀ e ∈ (scalingDownPass2 env cl idx).2, e.isDeletionEvent = true →
      ∃ i, i ∈ idx ∧
        (∀ n ∈ env.stsNodes (clusterStatefulSetName cl.name i), n.slots = []) ∧
        ∃ sts, env.getStatefulSet (clusterStatefulSetName cl.name i) = .ok sts ∧
          e ∈ groupDels cl i sts := by
  induction idx with
  | nil => simp [scalingDownPass2]
  | cons i rest ih =>
    intro e he hdel
    simp only [scalingDownPass2] at he
    cases hg : env.getStatefulSet (clusterStatefulSetName cl.name i) with
    | error g =>
      rw [hg] at he
      simp only [List.mem_singleton] at he
      subst he; simp [Event.isDeletionEvent] at hdel
    | ok sts =>
      rw [hg] at he
      simp only at he
      cases hr : (forgetLoop env (env.stsNodes (clusterStatefulSetName cl.name i))).1 with
      | ok =>
        rw [hr] at he
        simp only [List.mem_cons, List.mem_append] at he
        rcases he with rfl | (hfl | hgd) | hp
        · simp [Event.isDeletionEvent] at hdel
        · rcases forgetLoop_events_shape env _ e hfl with ⟨id, rfl⟩
          simp [Event.isDeletionEvent] at hdel
        · exact ⟨i, List.mem_cons_self _ _, forgetLoop_ok_all_empty env _ hr, sts, hg, hgd⟩
        · rcases ih e hp hdel with ⟨j, hj, hrest⟩
          exact ⟨j, List.mem_cons_of_mem _ hj, hrest⟩
      | err e0 =>
        rw [hr] at he
        simp only [List.mem_cons] at he
        rcases he with rfl | hfl
        · simp [Event.isDeletionEvent] at hdel
        · rcases forgetLoop_events_shape env _ e hfl with ⟨id, rfl⟩
          simp [Event.isDeletionEvent] at hdel
      | fault m =>
        rw [hr] at he
        simp only [List.mem_cons] at he
        rcases he with rfl | hfl
        · simp [Event.isDeletionEvent] at hdel
        · rcases forgetLoop_events_shape env _ e hfl with ⟨id, rfl⟩
          simp [Event.isDeletionEvent] at hdel

theorem pass2_err_classified (env : ScaleEnv) (cl : DistributedRedisCluster) (idx : List Int)
    (e : OpError) (h : (scalingDownPass2 env cl idx).1 = .err e) : e.isClassified = true := by
  induction idx with
  | nil => simp [scalingDownPass2] at h
  | cons i rest ih =>
    simp only [scalingDownPass2] at h
    cases hg : env.getStatefulSet (clusterStatefulSetName cl.name i) with
    | error g =>
      rw [hg] at h
      simp only at h
      injection h with h
      rw [← h]; rfl
    | ok sts =>
      rw [hg] at h
      simp only at h
      cases hr : (forgetLoop env (env.stsNodes (clusterStatefulSetName cl.name i))).1 with
      | ok => rw [hr] at h; simp only at h; exact ih h
      | err e0 =>
        rw [hr] at h
        simp only at h
        injection h with h
        exact h ▸ forgetLoop_err_classified env _ e0 hr
      | fault m => rw [hr] at h; simp at h

theorem pass2_guard (env : ScaleEnv) (cl : DistributedRedisCluster) (idx : List Int)
    (hg : ∀ s, ∃ sts, env.getStatefulSet s = .ok sts)
    (hf : ∀ id, env.forgetNode id = .ok ())
    (hoff : ∃ i, i ∈ idx ∧ ∃ n, n ∈ env.stsNodes (clusterStatefulSetName cl.name i) ∧
      n.slots ≠ []) :
    ∃ m, (scalingDownPass2 env cl idx).1 = .err (.newMsg .Redis m) := by
  induction idx with
  | nil => simp at hoff
  | cons i rest ih =>
    rcases hg (clusterStatefulSetName cl.name i) with ⟨sts, hsts⟩
    simp only [scalingDownPass2, hsts]
    by_cases hoi : ∃ n, n ∈ env.stsNodes (clusterStatefulSetName cl.name i) ∧ n.slots ≠ []
    · rcases forgetLoop_offender env _ hf (by
        rcases hoi with ⟨n, hn, hne⟩; exact ⟨n, hn, hne⟩) with ⟨m, hm⟩
      rw [hm]
      exact ⟨m, rfl⟩
    · have hall : ∀ n ∈ env.stsNodes (clusterStatefulSetName cl.name i), n.slots = [] := by
        intro n hn
        by_contra hne
        exact hoi ⟨n, hn, hne⟩
      rw [forgetLoop_all_ok env _ hf hall]
      simp only
      apply ih
      rcases hoff with ⟨j, hj, hjoff⟩
      rcases List.mem_cons.mp hj with rfl | hj'
      · exact absurd hjoff (by
          push_neg
          intro n hn
          by_contra hne
          exact hoi ⟨n, hn, hne⟩)
      · exact ⟨j, hj', hjoff⟩

theorem stsNamesOf_append (a b : List Event) :
    stsNamesOf (a ++ b) = stsNamesOf a ++ stsNamesOf b := by
  simp [stsNamesOf]

theorem stsNamesOf_forgetLoop (env : ScaleEnv) (nodes : List Node) :
    stsNamesOf (forgetLoop env nodes).2 = [] := by
  simp only [stsNamesOf]
  rw [List.filterMap_eq_nil_iff]
  intro e he
  rcases forgetLoop_events_shape env nodes e he with ⟨id, rfl⟩
  rfl

theorem stsNamesOf_groupDels (cl : DistributedRedisCluster) (i : Int) (sts : StatefulSet) :
    stsNamesOf (groupDels cl i sts) = [] := by
  simp [stsNamesOf, groupDels]

theorem pass2_stsNames (env : ScaleEnv) (cl : DistributedRedisCluster) (idx : List Int) :
    ∃ rs ts, rs ++ ts = idx ∧
      stsNamesOf (scalingDownPass2 env cl idx).2 =
        rs.map fun i => clusterStatefulSetName cl.name i := by
  induction idx with
  | nil => exact ⟨[], [], rfl, by simp [scalingDownPass2, stsNamesOf]⟩
  | cons i rest ih =>
    simp only [scalingDownPass2]
    cases hg : env.getStatefulSet (clusterStatefulSetName cl.name i) with
    | error g =>
      exact ⟨[i], rest, rfl, by simp [stsNamesOf]⟩
    | ok sts =>
      simp only
      cases hr : (forgetLoop env (env.stsNodes (clusterStatefulSetName cl.name i))).1 with
      | ok =>
        rcases ih with ⟨rs, ts, hsplit, hnames⟩
        refine ⟨i :: rs, ts, by rw [List.cons_append, hsplit], ?_⟩
        simp only [List.map_cons]
        have : stsNamesOf (Event.getSts (clusterStatefulSetName cl.name i) ::
            ((forgetLoop env (env.stsNodes (clusterStatefulSetName cl.name i))).2 ++
              groupDels cl i sts ++ (scalingDownPass2 env cl rest).2)) =
            clusterStatefulSetName cl.name i :: stsNamesOf (scalingDownPass2 env cl rest).2 := by
          simp only [stsNamesOf, List.filterMap_cons, List.filterMap_append]
          rw [show (forgetLoop env (env.stsNodes (clusterStatefulSetName cl.name i))).2.filterMap
              (fun e => match e with | .getSts s => some s | _ => none) = [] from
              stsNamesOf_forgetLoop env _]
          rw [show (groupDels cl i sts).filterMap
              (fun e => match e with | .getSts s => some s | _ => none) = [] from
              stsNamesOf_groupDels cl i sts]
          rfl
        rw [this, hnames]
      | err e0 =>
        refine ⟨[i], rest, rfl, ?_⟩
        simp only [stsNamesOf, List.filterMap_cons]
        rw [show (forgetLoop env (env.stsNodes (clusterStatefulSetName cl.name i))).2.filterMap
            (fun e => match e with | .getSts s => some s | _ => none) = [] from
            stsNamesOf_forgetLoop env _]
        rfl
      | fault m =>
        refine ⟨[i], rest, rfl, ?_⟩
        simp only [stsNamesOf, List.filterMap_cons]
        rw [show (forgetLoop env (env.stsNodes (clusterStatefulSetName cl.name i))).2.filterMap
            (fun e => match e with | .getSts s => some s | _ => none) = [] from
            stsNamesOf_forgetLoop env _]
        rfl

theorem pass2_ok_full (env : ScaleEnv) (cl : DistributedRedisCluster) (idx : List Int)
    (h : (scalingDownPass2 env cl idx).1 = .ok) :
    stsNamesOf (scalingDownPass2 env cl idx).2 =
      idx.map fun i => clusterStatefulSetName cl.name i := by
  induction idx with
  | nil => simp [scalingDownPass2, stsNamesOf]
  | cons i rest ih =>
    simp only [scalingDownPass2] at h ⊢
    cases hg : env.getStatefulSet (clusterStatefulSetName cl.name i) with
    | error g => rw [hg] at h; simp at h
    | ok sts =>
      rw [hg] at h
      simp only at h ⊢
      cases hr : (forgetLoop env (env.stsNodes (clusterStatefulSetName cl.name i))).1 with
      | ok =>
        rw [hr] at h
        simp only at h ⊢
        simp only [stsNamesOf, List.filterMap_cons, List.filterMap_append]
        rw [show (forgetLoop env (env.stsNodes (clusterStatefulSetName cl.name i))).2.filterMap
            (fun e => match e with | .getSts s => some s | _ => none) = [] from
            stsNamesOf_forgetLoop env _]
        rw [show (groupDels cl i sts).filterMap
            (fun e => match e with | .getSts s => some s | _ => none) = [] from
            stsNamesOf_groupDels cl i sts]
        have := ih h
        simp only [stsNamesOf] at this
        simp [this]
      | err e0 => rw [hr] at h; simp at h
      | fault m => rw [hr] at h; simp at h

theorem pass1_connRemove (env : ScaleEnv) (cl : DistributedRedisCluster) (cur : Int) :
    ∀ e ∈ scalingDownPass1 env cl cur, e.isConnRemove = true := by
  intro e he
  simp only [scalingDownPass1, List.mem_flatMap, List.mem_map] at he
  rcases he with ⟨i, _, n, _, rfl⟩
  rfl

theorem validate_init_preserved (env : EnsureEnv) (cl : DistributedRedisCluster) :
    (validate env cl).2.1.spec.init = cl.spec.init := by
  cases hi : cl.spec.init with
  | none => simp [validate, hi]
  | some initSpec =>
    cases hb : initSpec.backupSource with
    | none => simp [validate, hi, hb]
    | some bs =>
      cases hv : env.getRedisClusterBackupV with
      | error g => simp [validate, hi, hb, hv]
      | ok backup =>
        by_cases hp : backup.status.phase ≠ backupPhaseSucceeded
        · simp [validate, hi, hb, hv, hp]
        · simp [validate, hi, hb, hv, hp, hi]

theorem validate_no_waitSts (env : EnsureEnv) (cl : DistributedRedisCluster) :
    ∀ t k, Event.waitSts t k ∉ (validate env cl).2.2 := by
  intro t k
  cases hi : cl.spec.init with
  | none => simp [validate, hi]
  | some initSpec =>
    cases hb : initSpec.backupSource with
    | none => simp [validate, hi, hb]
    | some bs =>
      cases hv : env.getRedisClusterBackupV with
      | error g => simp [validate, hi, hb, hv]
      | ok backup =>
        by_cases hp : backup.status.phase ≠ backupPhaseSucceeded
        · simp [validate, hi, hb, hv, hp]
        · simp [validate, hi, hb, hv, hp]

theorem ensureTail_mem_waitSts (env : EnsureEnv) (cl : DistributedRedisCluster)
    (t0 : List Event) (t k : Int) :
    Event.waitSts t k ∈ (ensureTail env cl t0).trace ↔ Event.waitSts t k ∈ t0 := by
  cases hh : env.ensureRedisHeadLessSvcs with
  | error g => simp [ensureTail, hh]
  | ok u =>
    cases hs : env.ensureRedisSvc with
    | error g => simp [ensureTail, hh, hs]
    | ok v =>
      cases ho : env.ensureRedisOSMSecret with
      | error g =>
        by_cases hr : g.requestRetryable
        · simp [ensureTail, hh, hs, ho, hr]
        · simp [ensureTail, hh, hs, ho, hr]
      | ok w => simp [ensureTail, hh, hs, ho]

theorem ensureResources_mem_waitSts (env : EnsureEnv) (cl : DistributedRedisCluster)
    (t0 : List Event) (t k : Int) :
    Event.waitSts t k ∈ (ensureResources env cl t0).trace ↔
      (Event.waitSts t k ∈ t0 ∨
        (env.ensureRedisConfigMap = .ok () ∧ env.ensureRedisStatefulsets = .ok true ∧
          t = 30 * (cl.spec.clusterReplicas + 2) ∧ k = 5)) := by
  cases hc : env.ensureRedisConfigMap with
  | error g => simp [ensureResources, hc]
  | ok u =>
    cases u
    cases hs : env.ensureRedisStatefulsets with
    | error g => simp [ensureResources, hc, hs]
    | ok updated =>
      cases updated with
      | false => simp [ensureResources, hc, hs, ensureTail_mem_waitSts]
      | true =>
        cases hw : env.waitStatefulSetUpdating with
        | error e =>
          simp only [ensureResources, hc, hs, if_pos, hw]
          simp [List.mem_append, and_assoc]
        | ok v =>
          simp only [ensureResources, hc, hs, if_pos, hw]
          rw [ensureTail_mem_waitSts]
          simp [List.mem_append, and_assoc]

theorem ensureTail_err_classified (env : EnsureEnv) (cl : DistributedRedisCluster)
    (t0 : List Event) (e : OpError) (h : (ensureTail env cl t0).res = .err e) :
    e.isClassified = true := by
  cases hh : env.ensureRedisHeadLessSvcs with
  | error g => rw [ensureTail, hh] at h; injection h with h; rw [← h]; rfl
  | ok u =>
    rw [ensureTail, hh] at h
    simp only at h
    cases hs : env.ensureRedisSvc with
    | error g => rw [hs] at h; injection h with h; rw [← h]; rfl
    | ok v =>
      rw [hs] at h
      simp only at h
      cases ho : env.ensureRedisOSMSecret with
      | error g =>
        rw [ho] at h
        simp only at h
        by_cases hr : g.requestRetryable
        · rw [if_pos hr] at h; injection h with h; rw [← h]; rfl
        · rw [if_neg hr] at h; injection h with h; rw [← h]; rfl
      | ok w => rw [ho] at h; simp at h

theorem ensureResources_err_classified (env : EnsureEnv) (cl : DistributedRedisCluster)
    (t0 : List Event) (e : OpError)
    (hw : ∀ e', env.waitStatefulSetUpdating = .error e' → e'.isClassified = true)
    (h : (ensureResources env cl t0).res = .err e) : e.isClassified = true := by
  cases hc : env.ensureRedisConfigMap with
  | error g => rw [ensureResources, hc] at h; injection h with h; rw [← h]; rfl
  | ok u =>
    rw [ensureResources, hc] at h
    simp only at h
    cases hs : env.ensureRedisStatefulsets with
    | error g => rw [hs] at h; injection h with h; rw [← h]; rfl
    | ok updated =>
      rw [hs] at h
      simp only at h
      cases updated with
      | false => exact ensureTail_err_classified env cl _ e (by simpa using h)
      | true =>
        simp only [if_pos] at h
        cases hwv : env.waitStatefulSetUpdating with
        | error e' =>
          rw [hwv] at h
          simp only at h
          injection h with h
          exact h ▸ hw e' hwv
        | ok v => rw [hwv] at h; exact ensureTail_err_classified env cl _ e (by simpa using h)

theorem ensureAfterValidate_err (env : EnsureEnv) (cl : DistributedRedisCluster)
    (t0 : List Event) (e : OpError)
    (hw : ∀ e', env.waitStatefulSetUpdating = .error e' → e'.isClassified = true)
    (h : (ensureAfterValidate env cl t0).res = .err e) :
    e.isClassified = true ∨ ∃ g, env.getRedisClusterBackup2 = .error g ∧ e = .raw g := by
  cases hi : cl.spec.init with
  | none =>
    rw [ensureAfterValidate, hi] at h
    exact .inl (ensureResources_err_classified env cl _ e hw h)
  | some initSpec =>
    rw [ensureAfterValidate, hi] at h
    simp only at h
    cases hb : initSpec.backupSource with
    | none => rw [hb] at h; simp at h
    | some bs =>
      rw [hb] at h
      simp only at h
      cases h2 : env.getRedisClusterBackup2 with
      | error g =>
        rw [h2] at h
        simp only at h
        injection h with h
        exact .inr ⟨g, rfl, h.symm⟩
      | ok bu =>
        rw [h2] at h
        exact .inl (ensureResources_err_classified env cl _ e hw h)

theorem ensureCluster_err (env : EnsureEnv) (cl : DistributedRedisCluster) (e : OpError)
    (hw : ∀ e', env.waitStatefulSetUpdating = .error e' → e'.isClassified = true)
    (h : (ensureCluster env cl).res = .err e) :
    e.isClassified = true ∨ ∃ g, env.getRedisClusterBackup2 = .error g ∧ e = .raw g := by
  rw [ensureCluster] at h
  cases hv : (validate env cl).1 with
  | some g =>
    rw [hv] at h
    simp only at h
    by_cases hr : g.requestRetryable
    · rw [if_pos hr] at h; injection h with h; rw [← h]; exact .inl rfl
    · rw [if_neg hr] at h; injection h with h; rw [← h]; exact .inl rfl
  | none =>
    rw [hv] at h
    exact ensureAfterValidate_err env _ _ e hw h

theorem waitPodReady_err_classified (env : WaitPodEnv) (cl : DistributedRedisCluster)
    (e : OpError) (h : (waitPodReady env cl).res = .err e) : e.isClassified = true := by
  cases hf : env.fixTerminatingPods with
  | error g => rw [waitPodReady, hf] at h; injection h with h; rw [← h]; rfl
  | ok u =>
    rw [waitPodReady, hf] at h
    cases hc : env.checkRedisNodeNum with
    | error g => rw [hc] at h; injection h with h; rw [← h]; rfl
    | ok v => rw [hc] at h; simp at h

theorem waitForClusterJoin_err_classified (env : JoinEnv) (cl : DistributedRedisCluster)
    (e : OpError) (h : (waitForClusterJoin env cl).res = .err e) : e.isClassified = true := by
  cases h1 : env.getClusterInfos1 with
  | ok u => rw [waitForClusterJoin, h1] at h; simp at h
  | error g1 =>
    rw [waitForClusterJoin, h1] at h
    simp only at h
    cases hh : env.snapshot.head? with
    | none => rw [hh] at h; simp at h
    | some firstNode =>
      rw [hh] at h
      simp only at h
      cases ha : env.attachNodeToCluster firstNode.ipport with
      | error g => rw [ha] at h; injection h with h; rw [← h]; rfl
      | ok u =>
        rw [ha] at h
        simp only at h
        cases h2 : env.getClusterInfos2 with
        | error g => rw [h2] at h; injection h with h; rw [← h]; rfl
        | ok v => rw [h2] at h; simp at h

theorem scalingDown_err_classified (env : ScaleEnv) (cl : DistributedRedisCluster)
    (cur : Int) (e : OpError) (h : (scalingDown env cl cur).res = .err e) :
    e.isClassified = true :=
  pass2_err_classified env cl _ e h

theorem scalingDown_no_branch (env : ScaleEnv) (cl : DistributedRedisCluster) (cur : Int) :
    ∀ e ∈ (scalingDown env cl cur).trace, e.isBranch = false := by
  intro e he
  simp only [scalingDown, List.mem_append] at he
  rcases he with he | he
  · have := pass1_connRemove env cl cur e he
    cases e <;> first | rfl | (simp [Event.isConnRemove] at this)
  · exact (pass2_events_kinds env cl _ e he).2

theorem branch_shape_mem (X b : SyncBranch) (t trace : List Event)
    (hsh : trace = Event.branch X :: t) (hnb : ∀ e ∈ t, e.isBranch = false) :
    (Event.branch b ∈ trace ↔ b = X) := by
  subst hsh
  constructor
  · intro hm
    rcases List.mem_cons.mp hm with heq | hin
    · injection heq
    · have := hnb _ hin
      simp [Event.isBranch] at this
  · intro hb
    subst hb
    exact List.mem_cons_self _ _

theorem branch_shape_filter (X : SyncBranch) (t trace : List Event)
    (hsh : trace = Event.branch X :: t) (hnb : ∀ e ∈ t, e.isBranch = false) :
    (trace.filter Event.isBranch).length ≤ 1 := by
  subst hsh
  rw [List.filter_cons]
  have hfe : t.filter Event.isBranch = [] := by
    rw [List.filter_eq_nil_iff]
    intro a ha
    simp [hnb a ha]
  simp [Event.isBranch, hfe]

theorem bootstrapRun_shape (env : SyncEnv) :
    ∃ t, (bootstrapRun env).2 = Event.branch .bootstrap :: t ∧
      ∀ e ∈ t, e.isBranch = false := by
  cases hp : env.placeSlaves with
  | error g => exact ⟨[.placeSlaves], by simp [bootstrapRun, hp], by simp [Event.isBranch]⟩
  | ok u =>
    cases ha : env.attachingSlavesToMaster with
    | error g =>
      exact ⟨[.placeSlaves, .attachSlaves], by simp [bootstrapRun, hp, ha], by
        intro e he
        rcases List.mem_cons.mp he with rfl | he
        · rfl
        · simp only [List.mem_singleton] at he; subst he; rfl⟩
    | ok v =>
      cases hal : env.allocSlots with
      | error g =>
        refine ⟨[.placeSlaves, .attachSlaves, .allocSlots], by simp [bootstrapRun, hp, ha, hal], ?_⟩
        intro e he
        rcases List.mem_cons.mp he with rfl | he
        · rfl
        rcases List.mem_cons.mp he with rfl | he
        · rfl
        simp only [List.mem_singleton] at he; subst he; rfl
      | ok w =>
        refine ⟨[.placeSlaves, .attachSlaves, .allocSlots], by simp [bootstrapRun, hp, ha, hal], ?_⟩
        intro e he
        rcases List.mem_cons.mp he with rfl | he
        · rfl
        rcases List.mem_cons.mp he with rfl | he
        · rfl
        simp only [List.mem_singleton] at he; subst he; rfl

theorem scaleUpRun_shape (env : SyncEnv) :
    ∃ t, (scaleUpRun env).2 = Event.branch .scaleUp :: t ∧
      ∀ e ∈ t, e.isBranch = false := by
  cases hp : env.placeSlaves with
  | error g => exact ⟨[.placeSlaves], by simp [scaleUpRun, hp], by simp [Event.isBranch]⟩
  | ok u =>
    cases ha : env.attachingSlavesToMaster with
    | error g =>
      exact ⟨[.placeSlaves, .attachSlaves], by simp [scaleUpRun, hp, ha], by
        intro e he
        rcases List.mem_cons.mp he with rfl | he
        · rfl
        · simp only [List.mem_singleton] at he; subst he; rfl⟩
    | ok v =>
      cases hr : env.rebalancedCluster with
      | error g =>
        refine ⟨[.placeSlaves, .attachSlaves, .rebalance], by simp [scaleUpRun, hp, ha, hr], ?_⟩
        intro e he
        rcases List.mem_cons.mp he with rfl | he
        · rfl
        rcases List.mem_cons.mp he with rfl | he
        · rfl
        simp only [List.mem_singleton] at he; subst he; rfl
      | ok w =>
        refine ⟨[.placeSlaves, .attachSlaves, .rebalance], by simp [scaleUpRun, hp, ha, hr], ?_⟩
        intro e he
        rcases List.mem_cons.mp he with rfl | he
        · rfl
        rcases List.mem_cons.mp he with rfl | he
        · rfl
        simp only [List.mem_singleton] at he; subst he; rfl

theorem scaleReplicasRun_shape (env : SyncEnv) :
    ∃ t, (scaleReplicasRun env).2 = Event.branch .scaleReplicas :: t ∧
      ∀ e ∈ t, e.isBranch = false := by
  cases hp : env.placeSlaves with
  | error g => exact ⟨[.placeSlaves], by simp [scaleReplicasRun, hp], by simp [Event.isBranch]⟩
  | ok u =>
    cases ha : env.attachingSlavesToMaster with
    | error g =>
      exact ⟨[.placeSlaves, .attachSlaves], by simp [scaleReplicasRun, hp, ha], by
        intro e he
        rcases List.mem_cons.mp he with rfl | he
        · rfl
        · simp only [List.mem_singleton] at he; subst he; rfl⟩
    | ok v =>
      exact ⟨[.placeSlaves, .attachSlaves], by simp [scaleReplicasRun, hp, ha], by
        intro e he
        rcases List.mem_cons.mp he with rfl | he
        · rfl
        · simp only [List.mem_singleton] at he; subst he; rfl⟩

theorem scaleDownRun_shape (env : SyncEnv) (cl : DistributedRedisCluster) :
    ∃ t, (scaleDownRun env cl).2 = Event.branch .scaleDown :: t ∧
      ∀ e ∈ t, e.isBranch = false := by
  cases hd : env.dispatchSlotToNewMasters with
  | error e => exact ⟨[.dispatchSlots], by simp [scaleDownRun, hd], by simp [Event.isBranch]⟩
  | ok u =>
    refine ⟨.dispatchSlots :: (scalingDown env.scale cl (env.numCurMasters : Int)).trace,
      by simp [scaleDownRun, hd], ?_⟩
    intro e he
    rcases List.mem_cons.mp he with rfl | he
    · rfl
    · exact scalingDown_no_branch env.scale cl _ e he

theorem bootstrapRun_err_classified (env : SyncEnv) (e : OpError)
    (h : (bootstrapRun env).1 = .err e) : e.isClassified = true := by
  cases hp : env.placeSlaves with
  | error g => rw [bootstrapRun, hp] at h; injection h with h; rw [← h]; rfl
  | ok u =>
    rw [bootstrapRun, hp] at h
    simp only at h
    cases ha : env.attachingSlavesToMaster with
    | error g => rw [ha] at h; injection h with h; rw [← h]; rfl
    | ok v =>
      rw [ha] at h
      simp only at h
      cases hal : env.allocSlots with
      | error g => rw [hal] at h; injection h with h; rw [← h]; rfl
      | ok w => rw [hal] at h; simp at h

theorem scaleUpRun_err_classified (env : SyncEnv) (e : OpError)
    (h : (scaleUpRun env).1 = .err e) : e.isClassified = true := by
  cases hp : env.placeSlaves with
  | error g => rw [scaleUpRun, hp] at h; injection h with h; rw [← h]; rfl
  | ok u =>
    rw [scaleUpRun, hp] at h
    simp only at h
    cases ha : env.attachingSlavesToMaster with
    | error g => rw [ha] at h; injection h with h; rw [← h]; rfl
    | ok v =>
      rw [ha] at h
      simp only at h
      cases hr : env.rebalancedCluster with
      | error g => rw [hr] at h; injection h with h; rw [← h]; rfl
      | ok w => rw [hr] at h; simp at h

theorem scaleReplicasRun_err_classified (env : SyncEnv) (e : OpError)
    (h : (scaleReplicasRun env).1 = .err e) : e.isClassified = true := by
  cases hp : env.placeSlaves with
  | error g => rw [scaleReplicasRun, hp] at h; injection h with h; rw [← h]; rfl
  | ok u =>
    rw [scaleReplicasRun, hp] at h
    simp only at h
    cases ha : env.attachingSlavesToMaster with
    | error g => rw [ha] at h; injection h with h; rw [← h]; rfl
    | ok v => rw [ha] at h; simp at h

theorem scaleDownRun_err_classified (env : SyncEnv) (cl : DistributedRedisCluster) (e : OpError)
    (hd : ∀ e', env.dispatchSlotToNewMasters = .error e' → e'.isClassified = true)
    (h : (scaleDownRun env cl).1 = .err e) : e.isClassified = true := by
  cases hdd : env.dispatchSlotToNewMasters with
  | error e' =>
    rw [scaleDownRun, hdd] at h
    injection h with h
    exact h ▸ hd e' hdd
  | ok u =>
    rw [scaleDownRun, hdd] at h
    simp only at h
    exact scalingDown_err_classified env.scale cl _ e h

theorem syncCluster_err_classified (env : SyncEnv) (cl : DistributedRedisCluster) (e : OpError)
    (hd : ∀ e', env.dispatchSlotToNewMasters = .error e' → e'.isClassified = true)
    (h : (syncCluster env cl).res = .err e) : e.isClassified = true := by
  cases hn : env.newRedisClusterRes with
  | error g => rw [syncCluster, hn] at h; injection h with h; rw [← h]; rfl
  | ok u =>
    rw [syncCluster, hn] at h
    simp only at h
    cases hm : env.dispatchMasters with
    | error g => rw [hm] at h; injection h with h; rw [← h]; rfl
    | ok v =>
      rw [hm] at h
      simp only at h
      by_cases h0 : env.numCurMasters = 0
      · rw [if_pos h0] at h
        exact bootstrapRun_err_classified env e h
      · rw [if_neg h0] at h
        by_cases h1 : env.numNewMasters > env.numCurMasters
        · rw [if_pos h1] at h
          exact scaleUpRun_err_classified env e h
        · rw [if_neg h1] at h
          by_cases h2 : cl.status.minReplicationFactor < cl.spec.clusterReplicas
          · rw [if_pos h2] at h
            exact scaleReplicasRun_err_classified env e h
          · rw [if_neg h2] at h
            by_cases h3 : (env.numCurMasters : Int) > cl.spec.masterSize
            · rw [if_pos h3] at h
              exact scaleDownRun_err_classified env cl e hd h
            · rw [if_neg h3] at h
              simp at h

theorem ensureTail_cluster (env : EnsureEnv) (cl : DistributedRedisCluster) (t0 : List Event) :
    (ensureTail env cl t0).cluster = cl := by
  cases hh : env.ensureRedisHeadLessSvcs with
  | error g => simp [ensureTail, hh]
  | ok u =>
    cases hs : env.ensureRedisSvc with
    | error g => simp [ensureTail, hh, hs]
    | ok v =>
      cases ho : env.ensureRedisOSMSecret with
      | error g =>
        by_cases hr : g.requestRetryable
        · simp [ensureTail, hh, hs, ho, hr]
        · simp [ensureTail, hh, hs, ho, hr]
      | ok w => simp [ensureTail, hh, hs, ho]

theorem ensureResources_cluster (env : EnsureEnv) (cl : DistributedRedisCluster)
    (t0 : List Event) : (ensureResources env cl t0).cluster = cl := by
  cases hc : env.ensureRedisConfigMap with
  | error g => simp [ensureResources, hc]
  | ok u =>
    cases hs : env.ensureRedisStatefulsets with
    | error g => simp [ensureResources, hc, hs]
    | ok updated =>
      cases updated with
      | false => simp [ensureResources, hc, hs, ensureTail_cluster]
      | true =>
        cases hw : env.waitStatefulSetUpdating with
        | error e => simp [ensureResources, hc, hs, hw]
        | ok v => simp [ensureResources, hc, hs, hw, ensureTail_cluster]

theorem ensureAfterValidate_cluster (env : EnsureEnv) (cl : DistributedRedisCluster)
    (t0 : List Event) : (ensureAfterValidate env cl t0).cluster = cl := by
  cases hi : cl.spec.init with
  | none => simp [ensureAfterValidate, hi, ensureResources_cluster]
  | some initSpec =>
    cases hb : initSpec.backupSource with
    | none => simp [ensureAfterValidate, hi, hb]
    | some bs =>
      cases h2 : env.getRedisClusterBackup2 with
      | error g => simp [ensureAfterValidate, hi, hb, h2]
      | ok bu => simp [ensureAfterValidate, hi, hb, h2, ensureResources_cluster]

/-! Claim theorems. -/

/-- Claim C1, counterexample.  The claim states that whenever some node of a
retiring group holds slots, no forget-node call is issued for that group.
In this run group ordinal 1 is retiring, its node `B` holds slot 0, and yet
the forget-node request for its slot-free sibling `A` was already issued
before the guard fired, alongside the fatal Redis-kind error. -/
theorem scalingDown_forgets_before_guard_cex :
    (1 : Int) ∈ downIndices 2 clPlain.spec.masterSize ∧
    (∃ n, n ∈ scaleEnvAB.stsNodes (clusterStatefulSetName clPlain.name 1) ∧ n.slots ≠ []) ∧
    Event.forget "A" ∈ (scalingDown scaleEnvAB clPlain 2).trace ∧
    (scalingDown scaleEnvAB clPlain 2).res =
      .err (.newMsg .Redis "node B is not empty! Reshard data away and try again") := by
  decide

/-- Claim C1 (corrected): when every stateful-set fetch and forget-node
request succeeds and some node of a retiring group still holds slots, the
operation returns the fatal Redis-kind guard error, every forget-node call
it issued targeted a slot-free node (so never the slot-holding node), and
every resource deletion it issued belonged to a retiring group all of whose
nodes were slot-free — in particular no resource of the offending group is
deleted.  Forget-node calls for slot-free nodes that precede the
slot-holder in its group do occur, which is what refutes the original
claim. -/
theorem scalingDown_nonempty_guard (env : ScaleEnv) (cl : DistributedRedisCluster) (cur : Int)
    (hg : ∀ s, ∃ sts, env.getStatefulSet s = .ok sts)
    (hf : ∀ id, env.forgetNode id = .ok ())
    (hoff : ∃ i, i ∈ downIndices cur cl.spec.masterSize ∧
      ∃ n, n ∈ env.stsNodes (clusterStatefulSetName cl.name i) ∧ n.slots ≠ []) :
    (∃ m, (scalingDown env cl cur).res = .err (.newMsg .Redis m)) ∧
    (∀ id, Event.forget id ∈ (scalingDown env cl cur).trace →
      ∃ i, i ∈ downIndices cur cl.spec.masterSize ∧
        ∃ n, n ∈ env.stsNodes (clusterStatefulSetName cl.name i) ∧
          n.id = id ∧ n.slots = []) ∧
    (∀ e ∈ (scalingDown env cl cur).trace, e.isDeletionEvent = true →
      ∃ i, i ∈ downIndices cur cl.spec.masterSize ∧
        (∀ n ∈ env.stsNodes (clusterStatefulSetName cl.name i), n.slots = []) ∧
        ∃ sts, env.getStatefulSet (clusterStatefulSetName cl.name i) = .ok sts ∧
          e ∈ groupDels cl i sts) := by
  refine ⟨pass2_guard env cl _ hg hf hoff, ?_, ?_⟩
  · intro id he
    simp only [scalingDown, List.mem_append] at he
    rcases he with he | he
    · have := pass1_connRemove env cl cur _ he
      simp [Event.isConnRemove] at this
    · exact pass2_forget_events env cl _ id he
  · intro e he hdel
    simp only [scalingDown, List.mem_append] at he
    rcases he with he | he
    · have hc := pass1_connRemove env cl cur _ he
      rcases e <;> simp [Event.isConnRemove, Event.isDeletionEvent] at hc hdel
    · exact pass2_deletion_events env cl _ e he hdel

/-- Claim C1, witness for the corrected statement: with group ordinal 1
holding only the slot-carrying node `B` and all external calls succeeding,
the run ends in the fatal Redis-kind guard error. -/
theorem scalingDown_nonempty_guard_witness :
    ∃ m, (scalingDown scaleEnvB clPlain 2).res = .err (.newMsg .Redis m) :=
  (scalingDown_nonempty_guard scaleEnvB clPlain 2
    (fun _ => ⟨{ labels := [] }, rfl⟩) (fun _ => rfl)
    ⟨1, by decide, nodeB, by decide, by decide⟩).1

/-- Claim C2, counterexample.  The claim states that the scale-replicas
branch executes only when the target master count equals the current master
count.  Here the plan reports two current masters against one new (target)
master — the spec target `MasterSize` is also 1 — and the observed
replication factor is below the desired one, yet the scale-replicas branch
is the one that executes. -/
theorem syncCluster_scaleReplicas_mismatch_cex :
    Event.branch .scaleReplicas ∈ (syncCluster syncEnvShrink clWantReplicas).trace ∧
    syncEnvShrink.numNewMasters ≠ syncEnvShrink.numCurMasters ∧
    (syncEnvShrink.numCurMasters : Int) ≠ clWantReplicas.spec.masterSize := by
  decide

/-- Claim C2 (corrected): `syncCluster` evaluates its four branches in the
listed priority order and at most the first matching branch runs per tick,
but the scale-replicas branch executes exactly when current masters are
nonzero, the new-master count does not exceed the current count, and the
observed replication factor is below the desired one — hence also when the
current master count strictly exceeds the target. -/
theorem syncCluster_branch_priority (env : SyncEnv) (cl : DistributedRedisCluster) :
    (((syncCluster env cl).trace.filter Event.isBranch).length ≤ 1) ∧
    (Event.branch .bootstrap ∈ (syncCluster env cl).trace ↔
      (env.newRedisClusterRes = .ok () ∧ env.dispatchMasters = .ok () ∧
        env.numCurMasters = 0)) ∧
    (Event.branch .scaleUp ∈ (syncCluster env cl).trace ↔
      (env.newRedisClusterRes = .ok () ∧ env.dispatchMasters = .ok () ∧
        env.numCurMasters ≠ 0 ∧ env.numNewMasters > env.numCurMasters)) ∧
    (Event.branch .scaleReplicas ∈ (syncCluster env cl).trace ↔
      (env.newRedisClusterRes = .ok () ∧ env.dispatchMasters = .ok () ∧
        env.numCurMasters ≠ 0 ∧ ¬ env.numNewMasters > env.numCurMasters ∧
        cl.status.minReplicationFactor < cl.spec.clusterReplicas)) ∧
    (Event.branch .scaleDown ∈ (syncCluster env cl).trace ↔
      (env.newRedisClusterRes = .ok () ∧ env.dispatchMasters = .ok () ∧
        env.numCurMasters ≠ 0 ∧ ¬ env.numNewMasters > env.numCurMasters ∧
        ¬ cl.status.minReplicationFactor < cl.spec.clusterReplicas ∧
        (env.numCurMasters : Int) > cl.spec.masterSize)) := by
  cases hn : env.newRedisClusterRes with
  | error g => simp [syncCluster, hn]
  | ok u =>
    cases u
    cases hm : env.dispatchMasters with
    | error g => simp [syncCluster, hn, hm]
    | ok v =>
      cases v
      by_cases h0 : env.numCurMasters = 0
      · rcases bootstrapRun_shape env with ⟨t, hsh, hnb⟩
        simp only [syncCluster, hn, hm, if_pos h0]
        refine ⟨branch_shape_filter _ _ _ hsh hnb, ?_, ?_, ?_, ?_⟩
        · rw [branch_shape_mem _ _ _ _ hsh hnb]; simp [h0]
        · rw [branch_shape_mem _ _ _ _ hsh hnb]; simp [h0]
        · rw [branch_shape_mem _ _ _ _ hsh hnb]; simp [h0]
        · rw [branch_shape_mem _ _ _ _ hsh hnb]; simp [h0]
      · by_cases h1 : env.numNewMasters > env.numCurMasters
        · rcases scaleUpRun_shape env with ⟨t, hsh, hnb⟩
          simp only [syncCluster, hn, hm, if_neg h0, if_pos h1]
          refine ⟨branch_shape_filter _ _ _ hsh hnb, ?_, ?_, ?_, ?_⟩
          · rw [branch_shape_mem _ _ _ _ hsh hnb]; simp [h0]
          · rw [branch_shape_mem _ _ _ _ hsh hnb]; simp [h0, h1]
          · rw [branch_shape_mem _ _ _ _ hsh hnb]; simp [h1]
          · rw [branch_shape_mem _ _ _ _ hsh hnb]; simp [h1]
        · by_cases h2 : cl.status.minReplicationFactor < cl.spec.clusterReplicas
          · rcases scaleReplicasRun_shape env with ⟨t, hsh, hnb⟩
            simp only [syncCluster, hn, hm, if_neg h0, if_neg h1, if_pos h2]
            refine ⟨branch_shape_filter _ _ _ hsh hnb, ?_, ?_, ?_, ?_⟩
            · rw [branch_shape_mem _ _ _ _ hsh hnb]; simp [h0]
            · rw [branch_shape_mem _ _ _ _ hsh hnb]; simp [h1]
            · rw [branch_shape_mem _ _ _ _ hsh hnb]; simp [h0, h1, h2]
            · rw [branch_shape_mem _ _ _ _ hsh hnb]; simp [h2]
          · by_cases h3 : (env.numCurMasters : Int) > cl.spec.masterSize
            · rcases scaleDownRun_shape env cl with ⟨t, hsh, hnb⟩
              simp only [syncCluster, hn, hm, if_neg h0, if_neg h1, if_neg h2, if_pos h3]
              refine ⟨branch_shape_filter _ _ _ hsh hnb, ?_, ?_, ?_, ?_⟩
              · rw [branch_shape_mem _ _ _ _ hsh hnb]; simp [h0]
              · rw [branch_shape_mem _ _ _ _ hsh hnb]; simp [h1]
              · rw [branch_shape_mem _ _ _ _ hsh hnb]; simp [h2]
              · rw [branch_shape_mem _ _ _ _ hsh hnb]; simp [h0, h1, h2, h3]
            · simp [syncCluster, hn, hm, if_neg h0, if_neg h1, if_neg h2, if_neg h3,
                h0, h1, h2, h3]

/-- Claim C2, witness for the corrected statement: in the concrete
shrink-with-pending-replicas environment the scale-replicas branch is the
one that executes. -/
theorem syncCluster_branch_priority_witness :
    Event.branch .scaleReplicas ∈ (syncCluster syncEnvShrink clWantReplicas).trace :=
  ((syncCluster_branch_priority syncEnvShrink clWantReplicas).2.2.2.1).mpr
    ⟨rfl, rfl, by decide, by decide, by decide⟩

/-- Claim C3, counterexample.  The claim states that no operation of this
core mutates any spec field.  `validate` on a restore-requesting cluster
whose backup succeeded overwrites the master count (3 becomes 5, the value
recorded in the backup). -/
theorem validate_mutates_spec_cex :
    clRestore.spec.masterSize = 3 ∧
    (validate ensureEnvOk clRestore).2.1.spec.masterSize = 5 := by
  decide

/-- Claim C3 (corrected): only `validate` (and `ensureCluster`, which runs
it) mutates the spec, and only on the restore path — with no restore
requested `validate` returns the cluster unchanged and it never touches the
`init` field; `waitPodReady`, `waitForClusterJoin`, `syncCluster` and
`scalingDown` always leave the cluster object unchanged. -/
theorem spec_readonly_outside_restore :
    (∀ (env : EnsureEnv) (cl : DistributedRedisCluster),
      cl.spec.init = none → (validate env cl).2.1 = cl) ∧
    (∀ (env : EnsureEnv) (cl : DistributedRedisCluster),
      (validate env cl).2.1.spec.init = cl.spec.init) ∧
    (∀ (env : EnsureEnv) (cl : DistributedRedisCluster),
      (ensureCluster env cl).cluster = (validate env cl).2.1) ∧
    (∀ (env : WaitPodEnv) (cl : DistributedRedisCluster),
      (waitPodReady env cl).cluster = cl) ∧
    (∀ (env : JoinEnv) (cl : DistributedRedisCluster),
      (waitForClusterJoin env cl).cluster = cl) ∧
    (∀ (env : SyncEnv) (cl : DistributedRedisCluster),
      (syncCluster env cl).cluster = cl) ∧
    (∀ (env : ScaleEnv) (cl : DistributedRedisCluster) (cur : Int),
      (scalingDown env cl cur).cluster = cl) := by
  refine ⟨?_, ?_, ?_, ?_, ?_, ?_, ?_⟩
  · intro env cl hi
    simp [validate, hi]
  · intro env cl
    exact validate_init_preserved env cl
  · intro env cl
    rw [ensureCluster]
    cases hv : (validate env cl).1 with
    | some g =>
      by_cases hr : g.requestRetryable
      · simp [hr]
      · simp [hr]
    | none => exact ensureAfterValidate_cluster env _ _
  · intro env cl
    cases hf : env.fixTerminatingPods with
    | error g => simp [waitPodReady, hf]
    | ok u =>
      cases hc : env.checkRedisNodeNum with
      | error g => simp [waitPodReady, hf, hc]
      | ok v => simp [waitPodReady, hf, hc]
  · intro env cl
    cases h1 : env.getClusterInfos1 with
    | ok u => simp [waitForClusterJoin, h1]
    | error g1 =>
      cases hh : env.snapshot.head? with
      | none => simp [waitForClusterJoin, h1, hh]
      | some firstNode =>
        cases ha : env.attachNodeToCluster firstNode.ipport with
        | error g => simp [waitForClusterJoin, h1, hh, ha]
        | ok u =>
          cases h2 : env.getClusterInfos2 with
          | error g => simp [waitForClusterJoin, h1, hh, ha, h2]
          | ok v => simp [waitForClusterJoin, h1, hh, ha, h2]
  · intro env cl
    cases hn : env.newRedisClusterRes with
    | error g => simp [syncCluster, hn]
    | ok u =>
      cases hm : env.dispatchMasters with
      | error g => simp [syncCluster, hn, hm]
      | ok v =>
        by_cases h0 : env.numCurMasters = 0
        · simp [syncCluster, hn, hm, h0]
        · by_cases h1 : env.numNewMasters > env.numCurMasters
          · simp [syncCluster, hn, hm, h0, h1]
          · by_cases h2 : cl.status.minReplicationFactor < cl.spec.clusterReplicas
            · simp [syncCluster, hn, hm, h0, h1, h2]
            · by_cases h3 : (env.numCurMasters : Int) > cl.spec.masterSize
              · simp [syncCluster, hn, hm, h0, h1, h2, h3]
              · simp [syncCluster, hn, hm, h0, h1, h2, h3]
  · intro env cl cur
    rfl

/-- Claim C3, witness for the corrected statement: with no restore
requested, `validate` returns the cluster object unchanged. -/
theorem spec_readonly_outside_restore_witness :
    (validate ensureEnvOk clPlain).2.1 = clPlain :=
  spec_readonly_outside_restore.1 ensureEnvOk clPlain rfl

/-- Claim C4, counterexample.  The claim states that no unclassified error
escapes any operation of this core.  When the backup re-fetch inside
`ensureCluster` fails (after a successful `validate`), the raw fetch error
is returned unwrapped — `return err` at sync_handler.go:45. -/
theorem ensureCluster_raw_error_cex :
    (ensureCluster ensureEnvRefetchFails clRestore).res = .err (.raw gBoom) ∧
    OpError.isClassified (.raw gBoom) = false := by
  decide

/-- Claim C4 (corrected): every error returned by `waitPodReady`,
`waitForClusterJoin` and `scalingDown` carries exactly one classifier kind;
`ensureCluster` likewise, except that a failure of the backup re-fetch is
returned raw and unclassified; `syncCluster` returns only classified
errors provided the slot-dispatch step it passes through returns classified
errors (spec-modelled: the clustering package is outside the analysed
sources), and likewise `ensureCluster` assumes the stateful-set wait
poller returns classified errors. -/
theorem errors_classified_except_refetch :
    (∀ (env : WaitPodEnv) (cl : DistributedRedisCluster) (e : OpError),
      (waitPodReady env cl).res = .err e → e.isClassified = true) ∧
    (∀ (env : JoinEnv) (cl : DistributedRedisCluster) (e : OpError),
      (waitForClusterJoin env cl).res = .err e → e.isClassified = true) ∧
    (∀ (env : ScaleEnv) (cl : DistributedRedisCluster) (cur : Int) (e : OpError),
      (scalingDown env cl cur).res = .err e → e.isClassified = true) ∧
    (∀ (env : EnsureEnv) (cl : DistributedRedisCluster) (e : OpError),
      (∀ e', env.waitStatefulSetUpdating = .error e' → e'.isClassified = true) →
      (ensureCluster env cl).res = .err e →
      (e.isClassified = true ∨ ∃ g, env.getRedisClusterBackup2 = .error g ∧ e = .raw g)) ∧
    (∀ (env : SyncEnv) (cl : DistributedRedisCluster) (e : OpError),
      (∀ e', env.dispatchSlotToNewMasters = .error e' → e'.isClassified = true) →
      (syncCluster env cl).res = .err e → e.isClassified = true) :=
  ⟨fun env cl e h => waitPodReady_err_classified env cl e h,
   fun env cl e h => waitForClusterJoin_err_classified env cl e h,
   fun env cl cur e h => scalingDown_err_classified env cl cur e h,
   fun env cl e hw h => ensureCluster_err env cl e hw h,
   fun env cl e hd h => syncCluster_err_classified env cl e hd h⟩

/-- Claim C4, witness for the corrected statement: the error returned when
the healer call of `waitPodReady` fails is classified. -/
theorem errors_classified_except_refetch_witness :
    OpError.isClassified (.wrapped .Kubernetes "FixTerminatingPods" gBoom) = true :=
  errors_classified_except_refetch.1 waitPodEnvFail clPlain _ rfl

/-- Claim C5 (confirmed; the retryability verdicts of
`k8sutil.IsRequestRetryable` are modelled from the spec): with a restore
requested, `ensureCluster` classifies the `validate` failure as a
non-retryable StopRetry-kind error when no backup source is named, as a
retryable Kubernetes-kind error when the backup fetch fails with a
retryable platform error, and as a retryable Kubernetes-kind error when the
fetched backup has not reached the succeeded phase. -/
theorem validate_backup_error_classification
    (env : EnsureEnv) (cl : DistributedRedisCluster) (initSpec : InitSpec)
    (hi : cl.spec.init = some initSpec) :
    (initSpec.backupSource = none →
      (ensureCluster env cl).res =
        .err (.wrapped .StopRetry "stop retry" errBackupSourceRequired)) ∧
    (∀ bs g, initSpec.backupSource = some bs → env.getRedisClusterBackupV = .error g →
      g.requestRetryable = true →
      (ensureCluster env cl).res = .err (.wrapped .Kubernetes "Validate" g)) ∧
    (∀ bs bu, initSpec.backupSource = some bs → env.getRedisClusterBackupV = .ok bu →
      bu.status.phase ≠ backupPhaseSucceeded →
      (ensureCluster env cl).res =
        .err (.wrapped .Kubernetes "Validate" errBackupStillRunning)) := by
  refine ⟨?_, ?_, ?_⟩
  · intro hb
    simp [ensureCluster, validate, hi, hb, errBackupSourceRequired]
  · intro bs g hb hv hr
    simp [ensureCluster, validate, hi, hb, hv, hr]
  · intro bs bu hb hv hp
    simp [ensureCluster, validate, hi, hb, hv, hp, errBackupStillRunning]

/-- Claim C5, witness: a restore request without a named backup source is
classified StopRetry. -/
theorem validate_backup_error_classification_witness :
    (ensureCluster ensureEnvOk clNoSource).res =
      .err (.wrapped .StopRetry "stop retry" errBackupSourceRequired) :=
  (validate_backup_error_classification ensureEnvOk clNoSource
    { backupSource := none } rfl).1 rfl

/-- Claim C6, counterexample.  The claim states that on a succeeded backup
`validate` overwrites the spec image from the backup record.  With a
non-empty spec image the image is kept and the backup image is ignored. -/
theorem validate_keeps_nonempty_image_cex :
    clRestore.spec.image = "keep" ∧
    backupOk.status.clusterImage = "img-b" ∧
    (validate ensureEnvOk clRestore).1 = none ∧
    (validate ensureEnvOk clRestore).2.1.spec.image = "keep" := by
  decide

/-- Claim C6 (corrected): for a restore request whose backup has reached
the succeeded phase, `validate` succeeds and overwrites the master count
from the backup record, overwrites the image from the backup record only
when the spec image is empty (keeping a non-empty spec image), and forces
the replica count to zero while the restore-progress counter is not yet
positive, taking it from the backup record otherwise. -/
theorem validate_restore_overwrites (env : EnsureEnv) (cl : DistributedRedisCluster)
    (initSpec : InitSpec) (bs : BackupSource) (bu : RedisClusterBackup)
    (hi : cl.spec.init = some initSpec) (hb : initSpec.backupSource = some bs)
    (hv : env.getRedisClusterBackupV = .ok bu)
    (hp : bu.status.phase = backupPhaseSucceeded) :
    (validate env cl).1 = none ∧
    (validate env cl).2.1.spec.image =
      (if cl.spec.image = "" then bu.status.clusterImage else cl.spec.image) ∧
    (validate env cl).2.1.spec.masterSize = bu.status.masterSize ∧
    (validate env cl).2.1.spec.clusterReplicas =
      (if cl.status.restoreSucceeded ≤ 0 then 0 else bu.status.clusterReplicas) := by
  simp [validate, hi, hb, hv, hp]

/-- Claim C6, witness for the corrected statement: with an empty spec
image and a succeeded backup, the master count is overwritten with the
value recorded in the backup. -/
theorem validate_restore_overwrites_witness :
    (validate ensureEnvOk clRestoreNoImage).2.1.spec.masterSize = 5 := by
  have h := validate_restore_overwrites ensureEnvOk clRestoreNoImage
    { backupSource := some { ns := "ns1", name := "b1" } }
    { ns := "ns1", name := "b1" } backupOk rfl rfl rfl rfl
  rw [h.2.2.1]
  rfl

/-- Claim C7 (confirmed): the `scalingDown` trace is the connection-pool
removal pass followed by the retirement pass — every pool-removal event
precedes every forget or deletion event and the second pass contains no
pool removal; the retiring ordinals are exactly those from the target
master count up to the current count minus one, in strictly descending
order; the groups actually processed in pass 2 follow that descending
order (their fetched names form a prefix of the ordinal list), and on a
fully successful run every group of the list is processed. -/
theorem scalingDown_pool_removal_first (env : ScaleEnv) (cl : DistributedRedisCluster)
    (cur : Int) :
    ((scalingDown env cl cur).trace =
      scalingDownPass1 env cl cur ++
        (scalingDownPass2 env cl (downIndices cur cl.spec.masterSize)).2) ∧
    (∀ e ∈ scalingDownPass1 env cl cur, e.isConnRemove = true) ∧
    (∀ e ∈ (scalingDownPass2 env cl (downIndices cur cl.spec.masterSize)).2,
      e.isConnRemove = false) ∧
    ((downIndices cur cl.spec.masterSize).Pairwise (· > ·)) ∧
    (∀ i, i ∈ downIndices cur cl.spec.masterSize ↔
      cl.spec.masterSize ≤ i ∧ i ≤ cur - 1) ∧
    (∃ rs ts, rs ++ ts = downIndices cur cl.spec.masterSize ∧
      stsNamesOf (scalingDownPass2 env cl (downIndices cur cl.spec.masterSize)).2 =
        rs.map fun i => clusterStatefulSetName cl.name i) ∧
    ((scalingDown env cl cur).res = .ok →
      stsNamesOf (scalingDownPass2 env cl (downIndices cur cl.spec.masterSize)).2 =
        (downIndices cur cl.spec.masterSize).map fun i => clusterStatefulSetName cl.name i) := by
  refine ⟨rfl, pass1_connRemove env cl cur,
    fun e he => (pass2_events_kinds env cl _ e he).1,
    downIndices_pairwise cur cl.spec.masterSize,
    fun i => mem_downIndices cur cl.spec.masterSize i,
    pass2_stsNames env cl _, ?_⟩
  intro hok
  exact pass2_ok_full env cl _ hok

/-- Claim C7, witness: scaling a two-group surplus down to one group with
no failures processes the groups with ordinals 2 then 1, in that order. -/
theorem scalingDown_pool_removal_first_witness :
    stsNamesOf (scalingDownPass2 scaleEnvEmpty clPlain
        (downIndices 3 clPlain.spec.masterSize)).2 =
      (downIndices 3 clPlain.spec.masterSize).map
        fun i => clusterStatefulSetName clPlain.name i :=
  (scalingDown_pool_removal_first scaleEnvEmpty clPlain 3).2.2.2.2.2.2 (by decide)

/-- Claim C8, counterexample.  The claim states that when the first
topology query fails, one join request is issued, a one-second sleep and
one re-query follow, and a Requeue-classified error is returned iff the
re-query fails.  When the join request itself fails, the function returns
a Redis-classified error with no sleep and no re-query. -/
theorem waitForClusterJoin_attach_failure_cex :
    (waitForClusterJoin joinEnvAttachFails clPlain).res =
      .err (.wrapped .Redis "AttachNodeToCluster" gDown) ∧
    Event.sleepSec 1 ∉ (waitForClusterJoin joinEnvAttachFails clPlain).trace := by
  decide

/-- Claim C8 (corrected): if the first topology query succeeds the
function returns success having issued nothing but that query; otherwise,
with a non-empty snapshot and provided the join request itself succeeds,
exactly one join request is issued against a snapshot node, one second of
sleep and exactly one re-query follow, and a Requeue-classified error is
returned if and only if the re-query fails.  A failing join request is
returned as a Redis-classified error before the sleep and re-query. -/
theorem waitForClusterJoin_join_then_requery (env : JoinEnv) (cl : DistributedRedisCluster) :
    ((∃ u, env.getClusterInfos1 = .ok u) →
      (waitForClusterJoin env cl).res = .ok ∧
      (waitForClusterJoin env cl).trace = [.queryTopo]) ∧
    (∀ g n rest, env.getClusterInfos1 = .error g → env.snapshot = n :: rest →
      env.attachNodeToCluster n.ipport = .ok () →
      ((waitForClusterJoin env cl).trace =
        [.queryTopo, .attachNode n.ipport, .sleepSec 1, .queryTopo] ∧
       ((waitForClusterJoin env cl).res = .ok ↔ ∃ u, env.getClusterInfos2 = .ok u) ∧
       (∀ e, (waitForClusterJoin env cl).res = .err e →
         ∃ g2, env.getClusterInfos2 = .error g2 ∧
           e = .wrapped .Requeue "wait for cluster join" g2) ∧
       (∀ g2, env.getClusterInfos2 = .error g2 →
         (waitForClusterJoin env cl).res =
           .err (.wrapped .Requeue "wait for cluster join" g2)))) := by
  constructor
  · rintro ⟨u, h1⟩
    simp [waitForClusterJoin, h1]
  · intro g n rest h1 hsnap hatt
    have hhead : env.snapshot.head? = some n := by rw [hsnap]; rfl
    cases h2 : env.getClusterInfos2 with
    | error g2 =>
      refine ⟨by simp [waitForClusterJoin, h1, hhead, hatt, h2], ?_, ?_, ?_⟩
      · simp [waitForClusterJoin, h1, hhead, hatt, h2]
      · intro e he
        simp only [waitForClusterJoin, h1, hhead, hatt, h2] at he
        injection he with he
        exact ⟨g2, rfl, he.symm⟩
      · intro g2x hg2
        injection hg2 with hg2
        subst hg2
        simp [waitForClusterJoin, h1, hhead, hatt, h2]
    | ok v =>
      refine ⟨by simp [waitForClusterJoin, h1, hhead, hatt, h2], ?_, ?_, ?_⟩
      · simp only [waitForClusterJoin, h1, hhead, hatt, h2]
        simp
      · intro e he
        simp only [waitForClusterJoin, h1, hhead, hatt, h2] at he
        exact absurd he (by simp)
      · intro g2x hg2
        exact absurd hg2 (by simp)

/-- Claim C8, witness for the corrected statement: with the join request
succeeding and the re-query failing, the result is the Requeue-classified
wait error. -/
theorem waitForClusterJoin_join_then_requery_witness :
    (waitForClusterJoin joinEnvRequeue clPlain).res =
      .err (.wrapped .Requeue "wait for cluster join" gDown) :=
  ((waitForClusterJoin_join_then_requery joinEnvRequeue clPlain).2
    gBoom nodeA [] rfl rfl rfl).2.2.2 gDown rfl

theorem ensureCluster_validate_some (env : EnsureEnv) (cl : DistributedRedisCluster)
    (g : GoError) (h : (validate env cl).1 = some g) :
    ensureCluster env cl =
      if g.requestRetryable then
        ⟨.err (.wrapped .Kubernetes "Validate" g), (validate env cl).2.1, (validate env cl).2.2⟩
      else
        ⟨.err (.wrapped .StopRetry "stop retry" g), (validate env cl).2.1,
          (validate env cl).2.2⟩ := by
  rw [ensureCluster, h]

theorem ensureCluster_validate_none (env : EnsureEnv) (cl : DistributedRedisCluster)
    (h : (validate env cl).1 = none) :
    ensureCluster env cl =
      ensureAfterValidate env (validate env cl).2.1 (validate env cl).2.2 := by
  rw [ensureCluster, h]

theorem ensureAfterValidate_init_none (env : EnsureEnv) (cl : DistributedRedisCluster)
    (t0 : List Event) (h : cl.spec.init = none) :
    ensureAfterValidate env cl t0 = ensureResources env cl t0 := by
  rw [ensureAfterValidate, h]

theorem ensureAfterValidate_fetch_err (env : EnsureEnv) (cl : DistributedRedisCluster)
    (t0 : List Event) (initSpec : InitSpec) (bs : BackupSource) (g : GoError)
    (hi : cl.spec.init = some initSpec) (hb : initSpec.backupSource = some bs)
    (h2 : env.getRedisClusterBackup2 = .error g) :
    ensureAfterValidate env cl t0 =
      ⟨.err (.raw g), cl, t0 ++ [.getBackup bs.ns bs.name]⟩ := by
  simp [ensureAfterValidate, hi, hb, h2]

theorem ensureAfterValidate_fetch_ok (env : EnsureEnv) (cl : DistributedRedisCluster)
    (t0 : List Event) (initSpec : InitSpec) (bs : BackupSource) (bu : RedisClusterBackup)
    (hi : cl.spec.init = some initSpec) (hb : initSpec.backupSource = some bs)
    (h2 : env.getRedisClusterBackup2 = .ok bu) :
    ensureAfterValidate env cl t0 =
      ensureResources env cl (t0 ++ [.getBackup bs.ns bs.name]) := by
  simp [ensureAfterValidate, hi, hb, h2]

/-- Claim C9 (confirmed): the stateful-set update wait of `ensureCluster`
runs if and only if the run reaches the per-group ensure step and that
step reports a structural update, and the wait carries a timeout of 30
seconds times the (post-validate) replica count plus two, with a 5-second
tick. -/
theorem ensureCluster_wait_iff_updated (env : EnsureEnv) (cl : DistributedRedisCluster) :
    ((∃ t k, Event.waitSts t k ∈ (ensureCluster env cl).trace) ↔
      ((validate env cl).1 = none ∧
       (∀ initSpec, cl.spec.init = some initSpec →
         ∃ bu, env.getRedisClusterBackup2 = .ok bu) ∧
       env.ensureRedisConfigMap = .ok () ∧
       env.ensureRedisStatefulsets = .ok true)) ∧
    (∀ t k, Event.waitSts t k ∈ (ensureCluster env cl).trace →
      t = 30 * ((validate env cl).2.1.spec.clusterReplicas + 2) ∧ k = 5) := by
  have hinit : (validate env cl).2.1.spec.init = cl.spec.init := validate_init_preserved env cl
  have hvt : ∀ t k, Event.waitSts t k ∉ (validate env cl).2.2 := validate_no_waitSts env cl
  cases hv : (validate env cl).1 with
  | some g =>
    rw [ensureCluster_validate_some env cl g hv]
    have htr : (if g.requestRetryable then
        (⟨.err (.wrapped .Kubernetes "Validate" g), (validate env cl).2.1,
          (validate env cl).2.2⟩ : StepOut)
      else
        ⟨.err (.wrapped .StopRetry "stop retry" g), (validate env cl).2.1,
          (validate env cl).2.2⟩).trace = (validate env cl).2.2 := by
      by_cases hr : g.requestRetryable
      · rw [if_pos hr]
      · rw [if_neg hr]
    rw [htr]
    constructor
    · constructor
      · rintro ⟨t, k, hm⟩
        exact absurd hm (hvt t k)
      · rintro ⟨hnone, _⟩
        exact absurd hnone (by simp)
    · intro t k hm
      exact absurd hm (hvt t k)
  | none =>
    rw [ensureCluster_validate_none env cl hv]
    cases hi : (validate env cl).2.1.spec.init with
    | none =>
      rw [ensureAfterValidate_init_none env _ _ hi]
      rw [hi] at hinit
      constructor
      · constructor
        · rintro ⟨t, k, hm⟩
          rw [ensureResources_mem_waitSts env _ _ t k] at hm
          rcases hm with hm | hcond
          · exact absurd hm (hvt t k)
          · exact ⟨rfl, fun s hs => absurd (hinit.trans hs) (by simp),
              hcond.1, hcond.2.1⟩
        · rintro ⟨_, _, hcm, hsts⟩
          exact ⟨30 * ((validate env cl).2.1.spec.clusterReplicas + 2), 5,
            (ensureResources_mem_waitSts env _ _ _ _).mpr (Or.inr ⟨hcm, hsts, rfl, rfl⟩)⟩
      · intro t k hm
        rw [ensureResources_mem_waitSts env _ _ t k] at hm
        rcases hm with hm | hcond
        · exact absurd hm (hvt t k)
        · exact ⟨hcond.2.2.1, hcond.2.2.2⟩
    | some initSpec =>
      have hcli : cl.spec.init = some initSpec := hinit.symm.trans hi
      cases hb : initSpec.backupSource with
      | none =>
        exfalso
        have hv2 := hv
        simp [validate, hcli, hb] at hv2
      | some bs =>
        cases h2 : env.getRedisClusterBackup2 with
        | error g =>
          rw [ensureAfterValidate_fetch_err env _ _ initSpec bs g hi hb h2]
          have hvt2 : ∀ t k, Event.waitSts t k ∉
              (validate env cl).2.2 ++ [Event.getBackup bs.ns bs.name] := by
            intro t k hm
            rcases List.mem_append.mp hm with hm | hm
            · exact absurd hm (hvt t k)
            · exact absurd hm (by simp)
          constructor
          · constructor
            · rintro ⟨t, k, hm⟩
              exact absurd hm (hvt2 t k)
            · rintro ⟨_, hfetch, _⟩
              rcases hfetch initSpec hcli with ⟨bu, hbu⟩
              exact absurd hbu (by simp)
          · intro t k hm
            exact absurd hm (hvt2 t k)
        | ok bu =>
          rw [ensureAfterValidate_fetch_ok env _ _ initSpec bs bu hi hb h2]
          have hvt2 : ∀ t k, Event.waitSts t k ∉
              (validate env cl).2.2 ++ [Event.getBackup bs.ns bs.name] := by
            intro t k hm
            rcases List.mem_append.mp hm with hm | hm
            · exact absurd hm (hvt t k)
            · exact absurd hm (by simp)
          constructor
          · constructor
            · rintro ⟨t, k, hm⟩
              rw [ensureResources_mem_waitSts env _ _ t k] at hm
              rcases hm with hm | hcond
              · exact absurd hm (hvt2 t k)
              · exact ⟨rfl, fun s hs => ⟨bu, rfl⟩, hcond.1, hcond.2.1⟩
            · rintro ⟨_, _, hcm, hsts⟩
              exact ⟨30 * ((validate env cl).2.1.spec.clusterReplicas + 2), 5,
                (ensureResources_mem_waitSts env _ _ _ _).mpr (Or.inr ⟨hcm, hsts, rfl, rfl⟩)⟩
          · intro t k hm
            rw [ensureResources_mem_waitSts env _ _ t k] at hm
            rcases hm with hm | hcond
            · exact absurd hm (hvt2 t k)
            · exact ⟨hcond.2.2.1, hcond.2.2.2⟩

/-- Claim C9, witness: with no restore requested, every ensure step
succeeding and an update reported for a cluster with zero replicas, the
wait event carries timeout 60 seconds, which is 30 times the replica count
plus two, and tick 5 seconds. -/
theorem ensureCluster_wait_iff_updated_witness :
    (60 : Int) = 30 * ((validate ensureEnvOk clPlain).2.1.spec.clusterReplicas + 2) ∧
    (5 : Int) = 5 :=
  (ensureCluster_wait_iff_updated ensureEnvOk clPlain).2 60 5 (by decide)

/-- Claim C10 (confirmed): when the live topology query fails and the
snapshot holds no node, `waitForClusterJoin` selects no node and faults on
the nil address dereference instead of returning a classified error. -/
theorem waitForClusterJoin_nil_node_fault (env : JoinEnv) (cl : DistributedRedisCluster)
    (g : GoError) (h1 : env.getClusterInfos1 = .error g) (h2 : env.snapshot = []) :
    (waitForClusterJoin env cl).res = .fault "nil node dereference in IPPort" ∧
    ∀ e, (waitForClusterJoin env cl).res ≠ .err e := by
  have hhead : env.snapshot.head? = none := by rw [h2]; rfl
  constructor
  · simp [waitForClusterJoin, h1, hhead]
  · intro e
    simp [waitForClusterJoin, h1, hhead]

/-- Claim C10, witness: the concrete empty-snapshot environment faults. -/
theorem waitForClusterJoin_nil_node_fault_witness :
    (waitForClusterJoin joinEnvEmpty clPlain).res =
      .fault "nil node dereference in IPPort" :=
  (waitForClusterJoin_nil_node_fault joinEnvEmpty clPlain gBoom rfl rfl).1

end SyncHandler
